import Mathlib

set_option maxRecDepth 4000

/-!
Verification of the signing / order-lifecycle contract of the stink-biddorrrr
trading bot (src/main.rs). The Rust program is shallowly embedded: `f64`
arithmetic is modelled exactly as dyadic rationals with IEEE-754 binary64
round-to-nearest-even semantics, strings are Lean strings, HMAC-SHA256 is
implemented over byte lists, serde_json serialization is reproduced on a small
JSON syntax tree, and the effectful functions (`get_kline`,
`place_batch_order`, `cancel_batch_order`, the `main` loop) become pure
functions of the network responses they would receive, returning an `Outcome`
that distinguishes normal returns, `Err` returns and Rust panics.
-/

namespace StinkBid

/-! ## Small numeric utilities -/

/-- Binary exponentiation with fuel, so that evaluation depth is logarithmic
in the exponent; `powF fuel b n = b ^ n` whenever `2^fuel > n`. -/
def powF : Nat → Nat → Nat → Nat
  | 0, _, _ => 1
  | fuel + 1, b, n =>
    if n = 0 then 1
    else
      let h := powF fuel b (n / 2)
      if n % 2 = 0 then h * h else b * (h * h)

/-- Power of two with logarithmic evaluation depth. -/
def pow2 (n : Nat) : Nat := powF 64 2 n

/-- Power of five with logarithmic evaluation depth. -/
def pow5 (n : Nat) : Nat := powF 64 5 n

/-- Power of ten with logarithmic evaluation depth. -/
def pow10 (n : Nat) : Nat := powF 64 10 n

/-- Smallest power-of-two exponent bound found by doubling: returns some `h`
with `n < 2^h`, starting from a bound `h₀ ≥ 1` (fuel 64 suffices for any
number below `2^(2^64)`). Doubling keeps evaluation depth logarithmic, so
proofs can evaluate the float model by `rfl` within stock recursion limits. -/
def log2Hi : Nat → Nat → Nat → Nat
  | 0, _, h => h
  | fuel + 1, n, h => if n < pow2 h then h else log2Hi fuel n (h * 2)

/-- Binary search for the floor of the base-2 logarithm on the invariant
`2^lo ≤ n < 2^hi`. -/
def log2Search : Nat → Nat → Nat → Nat → Nat
  | 0, _, lo, _ => lo
  | fuel + 1, n, lo, hi =>
    if hi ≤ lo + 1 then lo
    else
      let mid := (lo + hi) / 2
      if pow2 mid ≤ n then log2Search fuel n mid hi else log2Search fuel n lo mid

/-- Floor of the base-2 logarithm of a positive natural (`0` at `0`). -/
def floorLog2 (n : Nat) : Nat := log2Search 70 n 0 (log2Hi 64 n 1)

/-- Round the fraction `p / q` (with `q ≠ 0`) to the nearest natural number,
ties to even — the IEEE-754 default rounding rule. -/
def roundHalfEvenNat (p q : Nat) : Nat :=
  let d := p / q
  let r := p % q
  if 2 * r < q then d
  else if q < 2 * r then d + 1
  else if d % 2 = 0 then d else d + 1

/-- Character for a decimal digit `n < 10`. -/
def digitChar (n : Nat) : Char := Char.ofNat (48 + n % 10)

/-- Decimal digit characters of `n`, most significant first, fuel-driven. -/
def natDigitsAux : Nat → Nat → List Char
  | 0, _ => []
  | fuel + 1, n => if n < 10 then [digitChar n] else natDigitsAux fuel (n / 10) ++ [digitChar (n % 10)]

/-- Decimal digit characters of `n` (`natDigits 0 = ['0']`). -/
def natDigits (n : Nat) : List Char := natDigitsAux (n + 1) n

/-- Exactly `k` decimal digit characters of `n % 10^k`, zero-padded on the
left; used for the fractional part of fixed-precision float formatting. -/
def fracDigits : Nat → Nat → List Char
  | 0, _ => []
  | k + 1, n => fracDigits k (n / 10) ++ [digitChar (n % 10)]

/-! ## Exact model of IEEE-754 binary64 (`f64`)

A finite double is the dyadic rational `m * 2^e`; values produced by the
rounding function are canonical (`m = 0`, or `2^52 ≤ |m| < 2^53`, or a
subnormal with `e = -1074`). Infinities carry their sign; there is a single
NaN. The negative zero of IEEE-754 is not distinguished from zero: no claim
under verification depends on the sign of a zero. -/

inductive F64 where
  | finite (m : Int) (e : Int) : F64
  | inf (neg : Bool) : F64
  | nan : F64
deriving DecidableEq, Repr

/-- Round the non-negative real `p / q` (`q ≠ 0`), with sign `sign`, to the
nearest binary64 value, ties to even, overflowing to infinity and
underflowing through the subnormal range to zero. -/
def roundFrac (sign : Bool) (p q : Nat) : F64 :=
  if p = 0 then .finite 0 0
  else
    let scaled := p * pow2 1200 / q
    if scaled = 0 then .finite 0 0
    else
      let L : Int := (floorLog2 scaled : Int) - 1200
      let e : Int := max (L - 52) (-1074)
      let m :=
        if 0 ≤ e then roundHalfEvenNat p (q * pow2 e.toNat)
        else roundHalfEvenNat (p * pow2 (-e).toNat) q
      let me : Nat × Int := if m = pow2 53 then (pow2 52, e + 1) else (m, e)
      if me.2 > 971 then .inf sign
      else if me.1 = 0 then .finite 0 0
      else .finite (if sign then -(me.1 : Int) else (me.1 : Int)) me.2

/-- Round the signed fraction `num / den` (`den ≠ 0`) to binary64. -/
def roundFracInt (num : Int) (den : Nat) : F64 :=
  if num < 0 then roundFrac true num.natAbs den else roundFrac false num.natAbs den

/-- Round the dyadic rational `n * 2^e` to binary64. -/
def roundDyadic (n : Int) (e : Int) : F64 :=
  if 0 ≤ e then roundFracInt (n * (pow2 e.toNat : Int)) 1 else roundFracInt n (pow2 (-e).toNat)

/-- IEEE-754 binary64 addition (round to nearest, ties to even). -/
def F64.add : F64 → F64 → F64
  | .nan, _ => .nan
  | _, .nan => .nan
  | .inf s1, .inf s2 => if s1 = s2 then .inf s1 else .nan
  | .inf s, .finite _ _ => .inf s
  | .finite _ _, .inf s => .inf s
  | .finite m1 e1, .finite m2 e2 =>
      let e := min e1 e2
      roundDyadic (m1 * (pow2 (e1 - e).toNat : Int) + m2 * (pow2 (e2 - e).toNat : Int)) e

/-- IEEE-754 binary64 negation (exact). -/
def F64.neg : F64 → F64
  | .nan => .nan
  | .inf s => .inf (!s)
  | .finite m e => .finite (-m) e

/-- IEEE-754 binary64 subtraction. -/
def F64.sub (a b : F64) : F64 := a.add b.neg

/-- IEEE-754 binary64 multiplication. -/
def F64.mul : F64 → F64 → F64
  | .nan, _ => .nan
  | _, .nan => .nan
  | .inf s1, .inf s2 => .inf (xor s1 s2)
  | .inf s, .finite m _ => if m = 0 then .nan else .inf (xor s (decide (m < 0)))
  | .finite m _, .inf s => if m = 0 then .nan else .inf (xor s (decide (m < 0)))
  | .finite m1 e1, .finite m2 e2 => roundDyadic (m1 * m2) (e1 + e2)

/-- IEEE-754 binary64 division. A zero divisor gives a signed infinity
(the dividend here is never negative in the embedded program); `0/0`,
`inf/inf` give NaN. -/
def F64.div : F64 → F64 → F64
  | .nan, _ => .nan
  | _, .nan => .nan
  | .inf _, .inf _ => .nan
  | .inf s, .finite m _ => .inf (xor s (decide (m < 0)))
  | .finite _ _, .inf _ => .finite 0 0
  | .finite m1 e1, .finite m2 e2 =>
      if m2 = 0 then (if m1 = 0 then .nan else .inf (decide (m1 < 0)))
      else
        let sign := xor (decide (m1 < 0)) (decide (m2 < 0))
        let num := m1.natAbs * pow2 (e1 - e2).toNat
        let den := m2.natAbs * pow2 (e2 - e1).toNat
        roundFrac sign num den

/-- Rust's `f64::round`: round to the nearest integer, ties away from zero.
Canonical finite doubles with `e ≥ 0` are already integral; for `e < 0` the
magnitude is below `2^53`, so the rounded integer is itself exactly
representable and is returned at exponent `0` (the representation is not
re-normalized: every model operation and formatter is a function of the
represented value, so this is value-faithful). -/
def F64.roundHalfAway : F64 → F64
  | .nan => .nan
  | .inf s => .inf s
  | .finite m e =>
      if 0 ≤ e then .finite m e
      else
        let q := pow2 (-e).toNat
        let a := m.natAbs
        let n := if q ≤ 2 * (a % q) then a / q + 1 else a / q
        .finite (if m < 0 then -(n : Int) else (n : Int)) 0

/-- A finite double literal `num / den` (`den ≠ 0`), as Rust reads a decimal
floating literal: the nearest binary64 value. -/
def flit (num den : Nat) : F64 := roundFrac false num den

/-! ## Rust float formatting

`format!("{:.P}", x)` renders a finite double with exactly `P` digits after
the decimal point (no point at all when `P = 0`), rounding the exact value of
the double to `P` decimal places, ties to even — the behaviour of Rust's
exact decimal formatting. Non-finite values render as `inf` / `-inf` / `NaN`,
ignoring the precision. -/

/-- Rust `format!` with fixed precision `prec` applied to a double. -/
def fmtF64 (prec : Nat) : F64 → String
  | .nan => "NaN"
  | .inf s => if s then "-inf" else "inf"
  | .finite m e =>
      let a := m.natAbs
      let n :=
        if 0 ≤ e then a * pow2 e.toNat * pow10 prec
        else roundHalfEvenNat (a * pow10 prec) (pow2 (-e).toNat)
      let sign : List Char := if m < 0 then ['-'] else []
      let frac : List Char := if prec = 0 then [] else '.' :: fracDigits prec (n % pow10 prec)
      String.mk (sign ++ natDigits (n / pow10 prec) ++ frac)

/-- Digit list with trailing `'0'` characters removed. -/
def trimZeros (cs : List Char) : List Char := (cs.reverse.dropWhile (· = '0')).reverse

/-- Rust `Display` (`format!("{}", x)`) for a double. In the embedded program
`Display` is only ever applied to results of `f64::round`, which are integral
(or non-finite), and on those this model is exact: an integral double prints
as a plain integer with no decimal point. For non-integral doubles Rust
prints the shortest round-tripping decimal; the model prints the exact (always
finite) decimal expansion instead, which agrees on every value the program
can produce. -/
def displayF64 : F64 → String
  | .nan => "NaN"
  | .inf s => if s then "-inf" else "inf"
  | .finite m e =>
      let sign : List Char := if m < 0 then ['-'] else []
      if 0 ≤ e then String.mk (sign ++ natDigits (m.natAbs * pow2 e.toNat))
      else
        let k := (-e).toNat
        let q := pow2 k
        let a := m.natAbs
        if a % q = 0 then String.mk (sign ++ natDigits (a / q))
        else String.mk (sign ++ natDigits (a / q) ++ '.' :: trimZeros (fracDigits k (a % q * pow5 k)))

/-! ## Rust float parsing

`str::parse::<f64>()` accepts an optional sign, then either a (case
insensitive) `inf` / `infinity` / `nan`, or a decimal number
`digits [. digits] [(e|E) [sign] digits]` containing at least one mantissa
digit (`"5."`, `".5"` are accepted); anything else — empty input, stray
characters, whitespace, a missing exponent digit — is an error, modelled as
`none`. Decimal exponents far outside the binary64 range are clamped straight
to infinity or zero, which is exactly where rounding would take them. -/

/-- Numeric value of a list of decimal digit characters. -/
def digitsToNat (cs : List Char) : Nat := cs.foldl (fun a c => a * 10 + (c.toNat - 48)) 0

/-- Case-insensitive comparison of a character list with a lowercase word. -/
def lowerEq (cs : List Char) (w : List Char) : Bool := cs.map Char.toLower == w

/-- Binary64 value of the decimal `± mant * 10^k` produced by the parser. -/
def mkParsed (neg : Bool) (mant : Nat) (k : Int) : F64 :=
  if mant = 0 then .finite 0 0
  else if 310 ≤ k then .inf neg
  else if k + (natDigits mant).length ≤ -330 then .finite 0 0
  else if 0 ≤ k then roundFrac neg (mant * pow10 k.toNat) 1
  else roundFrac neg mant (pow10 (-k).toNat)

/-- Rust `str::parse::<f64>()`. -/
def parseF64 (s : String) : Option F64 :=
  let cs := s.toList
  let signAndRest : Bool × List Char :=
    match cs with
    | '+' :: rest => (false, rest)
    | '-' :: rest => (true, rest)
    | _ => (false, cs)
  let neg := signAndRest.1
  let cs := signAndRest.2
  if lowerEq cs ['i', 'n', 'f'] || lowerEq cs ['i', 'n', 'f', 'i', 'n', 'i', 't', 'y'] then
    some (.inf neg)
  else if lowerEq cs ['n', 'a', 'n'] then some .nan
  else
    let intSplit := cs.span Char.isDigit
    let fracSplit : List Char × List Char :=
      match intSplit.2 with
      | '.' :: r => r.span Char.isDigit
      | _ => ([], intSplit.2)
    let ds := intSplit.1
    let fs := fracSplit.1
    if ds.isEmpty ∧ fs.isEmpty then none
    else
      let mant := digitsToNat (ds ++ fs)
      let fracLen : Int := fs.length
      match fracSplit.2 with
      | [] => some (mkParsed neg mant (-fracLen))
      | c :: r =>
        if c = 'e' ∨ c = 'E' then
          let esignAndRest : Bool × List Char :=
            match r with
            | '+' :: r2 => (false, r2)
            | '-' :: r2 => (true, r2)
            | _ => (false, r)
          let eds := esignAndRest.2.span Char.isDigit
          if eds.1.isEmpty ∨ ¬eds.2.isEmpty then none
          else
            let ev : Int := if esignAndRest.1 then -(digitsToNat eds.1 : Int) else digitsToNat eds.1
            some (mkParsed neg mant (ev - fracLen))
        else none

/-! ## Bytes and UTF-8

Byte strings are lists of naturals below 256. Rust's `str::as_bytes` is the
UTF-8 encoding of the string. -/

/-- UTF-8 encoding of a single character. -/
def utf8Char (c : Char) : List Nat :=
  let n := c.toNat
  if n < 128 then [n]
  else if n < 2048 then [192 + n / 64, 128 + n % 64]
  else if n < 65536 then [224 + n / 4096, 128 + n / 64 % 64, 128 + n % 64]
  else [240 + n / 262144, 128 + n / 4096 % 64, 128 + n / 64 % 64, 128 + n % 64]

/-- UTF-8 encoding of a string (Rust `str::as_bytes`). -/
def utf8 (s : String) : List Nat := s.data.flatMap utf8Char

/-! ## SHA-256 and HMAC-SHA256

A direct implementation of FIPS 180-4 SHA-256 over byte lists, with 32-bit
words as naturals reduced mod `2^32`, and of RFC 2104 HMAC on top of it.
These model the `sha2` and `hmac` crates used by the signer. -/

/-- Word size modulus `2^32`. -/
def M32 : Nat := 4294967296

/-- Rotate a 32-bit word right by `n`. -/
def rotr32 (n x : Nat) : Nat := (x / 2 ^ n + x % 2 ^ n * 2 ^ (32 - n)) % M32

/-- SHA-256 `Ch` function. -/
def shaCh (x y z : Nat) : Nat := (x &&& y) ^^^ ((x ^^^ (M32 - 1)) &&& z)

/-- SHA-256 `Maj` function. -/
def shaMaj (x y z : Nat) : Nat := (x &&& y) ^^^ (x &&& z) ^^^ (y &&& z)

/-- SHA-256 `Σ0`. -/
def bigSigma0 (x : Nat) : Nat := rotr32 2 x ^^^ rotr32 13 x ^^^ rotr32 22 x

/-- SHA-256 `Σ1`. -/
def bigSigma1 (x : Nat) : Nat := rotr32 6 x ^^^ rotr32 11 x ^^^ rotr32 25 x

/-- SHA-256 `σ0`. -/
def smallSigma0 (x : Nat) : Nat := rotr32 7 x ^^^ rotr32 18 x ^^^ (x / 2 ^ 3)

/-- SHA-256 `σ1`. -/
def smallSigma1 (x : Nat) : Nat := rotr32 17 x ^^^ rotr32 19 x ^^^ (x / 2 ^ 10)

/-- Trial-division primality test for the small primes the SHA-256 constants
are built from. -/
def isPrimeNat (n : Nat) : Bool :=
  decide (2 ≤ n) && ((List.range n).drop 2).all fun d => n % d ≠ 0

/-- The first 64 primes (2 through 311), from which FIPS 180-4 defines the
SHA-256 constants. -/
def shaPrimes : List Nat := (List.range 312).filter isPrimeNat

/-- Binary search for the integer cube root on the invariant
`lo³ ≤ n < hi³`. -/
def cbrtSearch : Nat → Nat → Nat → Nat → Nat
  | 0, _, lo, _ => lo
  | fuel + 1, n, lo, hi =>
    if hi ≤ lo + 1 then lo
    else
      let mid := (lo + hi) / 2
      if mid * mid * mid ≤ n then cbrtSearch fuel n mid hi else cbrtSearch fuel n lo mid

/-- Integer cube root. -/
def icbrt (n : Nat) : Nat := cbrtSearch 128 n 0 (n + 2)

/-- SHA-256 initial hash state `H₀…H₇`: the first 32 bits of the fractional
parts of the square roots of the first 8 primes (FIPS 180-4 §5.3.3). -/
def shaH0 : List Nat := (shaPrimes.take 8).map fun p => Nat.sqrt (p * 2 ^ 64) % 2 ^ 32

/-- SHA-256 round constants `K₀…K₆₃`: the first 32 bits of the fractional
parts of the cube roots of the first 64 primes (FIPS 180-4 §4.2.2). -/
def shaK : List Nat := shaPrimes.map fun p => icbrt (p * 2 ^ 96) % 2 ^ 32

/-- Big-endian 8-byte encoding of a length in bits. -/
def be64 (n : Nat) : List Nat :=
  [n / 2 ^ 56 % 256, n / 2 ^ 48 % 256, n / 2 ^ 40 % 256, n / 2 ^ 32 % 256,
   n / 2 ^ 24 % 256, n / 2 ^ 16 % 256, n / 2 ^ 8 % 256, n % 256]

/-- Big-endian 4-byte encoding of a 32-bit word. -/
def be32 (n : Nat) : List Nat := [n / 2 ^ 24 % 256, n / 2 ^ 16 % 256, n / 2 ^ 8 % 256, n % 256]

/-- SHA-256 padding: append `0x80`, zeros to 56 mod 64, and the bit length. -/
def shaPad (msg : List Nat) : List Nat :=
  msg ++ 0x80 :: List.replicate ((119 - msg.length % 64) % 64) 0 ++ be64 (8 * msg.length)

/-- Group bytes into big-endian 32-bit words. -/
def bytesToWords : List Nat → List Nat
  | a :: b :: c :: d :: rest => (((a * 256 + b) * 256 + c) * 256 + d) :: bytesToWords rest
  | _ => []

/-- Extend a 16-word block once, appending the next scheduled word. -/
def schedStep (w : List Nat) : List Nat :=
  let n := w.length
  w ++ [(smallSigma1 (w.getD (n - 2) 0) + w.getD (n - 7) 0 + smallSigma0 (w.getD (n - 15) 0) +
         w.getD (n - 16) 0) % M32]

/-- Iterate the schedule extension. -/
def extendW : Nat → List Nat → List Nat
  | 0, w => w
  | k + 1, w => extendW k (schedStep w)

/-- SHA-256 working registers. -/
structure ShaState where
  a : Nat
  b : Nat
  c : Nat
  d : Nat
  e : Nat
  f : Nat
  g : Nat
  h : Nat

/-- One SHA-256 compression round with round constant `ki` and word `wi`. -/
def compressStep (s : ShaState) (kw : Nat × Nat) : ShaState :=
  let t1 := (s.h + bigSigma1 s.e + shaCh s.e s.f s.g + kw.1 + kw.2) % M32
  let t2 := (bigSigma0 s.a + shaMaj s.a s.b s.c) % M32
  ⟨(t1 + t2) % M32, s.a, s.b, s.c, (s.d + t1) % M32, s.e, s.f, s.g⟩

/-- Compress one 64-byte block into the running hash value. -/
def compressBlock (hs : List Nat) (block : List Nat) : List Nat :=
  let w := extendW 48 (bytesToWords block)
  let init : ShaState :=
    ⟨hs.getD 0 0, hs.getD 1 0, hs.getD 2 0, hs.getD 3 0, hs.getD 4 0, hs.getD 5 0, hs.getD 6 0,
     hs.getD 7 0⟩
  let s := (shaK.zip w).foldl compressStep init
  [(hs.getD 0 0 + s.a) % M32, (hs.getD 1 0 + s.b) % M32, (hs.getD 2 0 + s.c) % M32,
   (hs.getD 3 0 + s.d) % M32, (hs.getD 4 0 + s.e) % M32, (hs.getD 5 0 + s.f) % M32,
   (hs.getD 6 0 + s.g) % M32, (hs.getD 7 0 + s.h) % M32]

/-- Split a byte list into 64-byte blocks, fuel-driven. -/
def blocks64 : Nat → List Nat → List (List Nat)
  | 0, _ => []
  | _, [] => []
  | fuel + 1, l => l.take 64 :: blocks64 fuel (l.drop 64)

/-- SHA-256 digest (32 bytes) of a byte list. -/
def sha256 (msg : List Nat) : List Nat :=
  let padded := shaPad msg
  ((blocks64 padded.length padded).foldl compressBlock shaH0).flatMap be32

/-- RFC 2104 HMAC-SHA256 of `msg` under `key` (32 bytes). -/
def hmacSha256 (key msg : List Nat) : List Nat :=
  let k0 := if 64 < key.length then sha256 key else key
  let k := k0 ++ List.replicate (64 - k0.length) 0
  sha256 (k.map (· ^^^ 0x5c) ++ sha256 (k.map (· ^^^ 0x36) ++ msg))

/-- Lowercase hexadecimal digit character for `n < 16`. -/
def hexDigitChar (n : Nat) : Char :=
  if n < 10 then Char.ofNat (48 + n) else Char.ofNat (87 + n % 16)

/-- Lowercase hexadecimal rendering of a byte list (Rust `hex::encode`). -/
def hexEncode (bs : List Nat) : String :=
  String.mk (bs.flatMap fun b => [hexDigitChar (b / 16 % 16), hexDigitChar (b % 16)])

/-! ## JSON values and serde_json serialization

A `serde_json::Value` restricted to the shapes the program builds and
receives: null, booleans, (integer) numbers, strings, arrays and objects.
Objects are association lists in serialization order; the program's top-level
parameter maps are `serde_json::Map` (a map ordered by key), whose two keys
`category` and `request` are inserted in their sorted order, so list order and
serde's order coincide. Serialization reproduces `serde_json::to_string`:
compact separators, struct fields in declaration order, strings escaped as
serde_json escapes them. -/

mutual
inductive Json where
  | null : Json
  | bool : Bool → Json
  | num : Int → Json
  | str : String → Json
  | arr : JsonList → Json
  | obj : JsonFields → Json
inductive JsonList where
  | nil : JsonList
  | cons : Json → JsonList → JsonList
inductive JsonFields where
  | fnil : JsonFields
  | fcons : String → Json → JsonFields → JsonFields
end

/-- serde_json escaping of one character inside a JSON string literal. -/
def escapeChar (c : Char) : List Char :=
  if c = '"' then ['\\', '"']
  else if c = '\\' then ['\\', '\\']
  else if 32 ≤ c.toNat then [c]
  else
    match c.toNat with
    | 8 => ['\\', 'b']
    | 9 => ['\\', 't']
    | 10 => ['\\', 'n']
    | 12 => ['\\', 'f']
    | 13 => ['\\', 'r']
    | n => ['\\', 'u', '0', '0', hexDigitChar (n / 16 % 16), hexDigitChar (n % 16)]

/-- serde_json rendering of a string literal, quotes included. -/
def strChars (s : String) : List Char := '"' :: s.data.flatMap escapeChar ++ ['"']

/-- Decimal rendering of an integer. -/
def intChars (n : Int) : List Char :=
  if n < 0 then '-' :: natDigits n.natAbs else natDigits n.natAbs

mutual
/-- Compact serde_json serialization of a value, as characters. -/
def Json.chars : Json → List Char
  | .null => ['n', 'u', 'l', 'l']
  | .bool b => if b then ['t', 'r', 'u', 'e'] else ['f', 'a', 'l', 's', 'e']
  | .num n => intChars n
  | .str s => strChars s
  | .arr l => '[' :: JsonList.chars l ++ [']']
  | .obj f => '\x7b' :: JsonFields.chars f ++ ['\x7d']
/-- Comma-separated serialization of array elements. -/
def JsonList.chars : JsonList → List Char
  | .nil => []
  | .cons x .nil => Json.chars x
  | .cons x (.cons y t) => Json.chars x ++ ',' :: JsonList.chars (JsonList.cons y t)
/-- Comma-separated serialization of object members. -/
def JsonFields.chars : JsonFields → List Char
  | .fnil => []
  | .fcons k v .fnil => strChars k ++ ':' :: Json.chars v
  | .fcons k v (.fcons k2 v2 t) =>
      strChars k ++ ':' :: Json.chars v ++ ',' :: JsonFields.chars (JsonFields.fcons k2 v2 t)
end

/-- Conversion from a Lean list of values to a JSON array spine. -/
def toJsonList : List Json → JsonList
  | [] => .nil
  | x :: t => .cons x (toJsonList t)

/-- Result of `serde_json::to_string` on a value. -/
def jsonToString (j : Json) : String := String.mk j.chars

/-- Result of `serde_json::to_string` on a parameter map with the given
fields; also the byte-for-byte body reqwest's `.json(&params)` transmits,
since both go through serde's `Serialize` for the same map. -/
def jsonObjToString (f : JsonFields) : String := String.mk (Json.obj f).chars

/-! ## Data model of src/main.rs

The serde structs of the program, with Rust field names. `retExtInfo` is a
`HashMap<String, Value>`, modelled as an association list; it is only ever
deserialized and printed, never serialized into a request. -/

/-- Envelope of every exchange API response (`struct ApiResponse<T>`). -/
structure ApiResponse (T : Type) where
  ret_code : Int
  ret_msg : String
  result : T
  ret_ext_info : List (String × Json)
  time : Nat

/-- One candlestick (`struct Kline`); all fields are decimal text. -/
structure Kline where
  start_time : String
  open_price : String
  high_price : String
  low_price : String
  close_price : String
  volume : String
  turnover : String
deriving DecidableEq

/-- Result payload of the candlestick endpoint (`struct KlineData`). -/
structure KlineData where
  symbol : String
  category : String
  list : List Kline
deriving DecidableEq

/-- One order of a batch (`struct OrderRequest`); serde renames `order_type`
to `orderType`. -/
structure OrderRequest where
  symbol : String
  side : String
  order_type : String
  qty : String
  price : String
deriving DecidableEq

/-- One order of a batch-order response (`struct BatchOrderResponse`). -/
structure BatchOrderResponse where
  category : String
  symbol : String
  order_id : String
  order_link_id : String
  create_at : String
deriving DecidableEq

/-- Result payload of the batch-order endpoint (`struct BatchOrderResult`). -/
structure BatchOrderResult where
  list : List BatchOrderResponse
deriving DecidableEq

/-- The three tier sizes before formatting (`struct Quantity`). -/
structure Quantity where
  twenty_percent_size : F64
  twenty_five_percent_size : F64
  thirty_percent_size : F64
deriving DecidableEq

/-- The three tier prices before formatting (`struct Price`). -/
structure Price where
  twenty_percent_price : F64
  twenty_five_percent_price : F64
  thirty_percent_price : F64
deriving DecidableEq

/-- Formatted tier prices and sizes (`struct FormattedPosition`). -/
structure FormattedPosition where
  twenty_percent_price : String
  twenty_five_percent_price : String
  thirty_percent_price : String
  twenty_percent_size : String
  twenty_five_percent_size : String
  thirty_percent_size : String
deriving DecidableEq

/-- A cancellation record (`struct CancelOrderData`); serde renames
`order_id` to `orderId`. -/
structure CancelOrderData where
  symbol : String
  order_id : String
deriving DecidableEq

/-- Result of running a piece of Rust code: a normal return, an `Err` carried
by `Result` (the program's `Box<dyn Error>` payloads are modelled by their
message), or a panic (`unwrap` / `expect`). -/
inductive Outcome (α : Type) where
  | ok : α → Outcome α
  | err : String → Outcome α
  | panic : String → Outcome α
deriving DecidableEq

/-- Whether an outcome is a panic. -/
def Outcome.isPanic {α} : Outcome α → Bool
  | .panic _ => true
  | _ => false

/-- Whether an outcome is a normal return. -/
def Outcome.isOk {α} : Outcome α → Bool
  | .ok _ => true
  | _ => false

/-- The returned value of an `ok` outcome, with a default elsewhere. -/
def Outcome.getOk {α} (d : α) : Outcome α → α
  | .ok a => a
  | _ => d

/-- View of a non-panicking outcome as the `Result` the surrounding Rust code
matches on (the panic arm is never consulted under a no-panic hypothesis). -/
def Outcome.toExcept {α} : Outcome α → Except String α
  | .ok a => .ok a
  | .err e => .error e
  | .panic m => .error m

/-- An authenticated POST as the program assembles it: target URL, the exact
JSON body reqwest transmits, and the headers. -/
structure PostRequest where
  url : String
  body : String
  headers : List (String × String)
deriving DecidableEq

/-! ## The embedded program functions -/

/-- Candlestick fetch `get_kline`, as a function of the symbol and of the
decoded HTTP response (`Err` covers both the transport failure of
`reqwest::get(..).await?` and the decode failure of `.json().await?`). On
success the Rust code takes `result.list.first().unwrap()` — a panic when the
list is empty — and returns the pair (symbol, open price of the first
candle). -/
def get_kline (symbol : String) (response : Except String (ApiResponse KlineData)) :
    Outcome (String × String) :=
  match response with
  | .error e => .err e
  | .ok api_response =>
    match api_response.result.list.head? with
    | none => .panic "called `Option::unwrap()` on a `None` value"
    | some first_kline => .ok (symbol, first_kline.open_price)

/-- Signer `generate_post_signature`. The `Hmac<Sha256>` MAC is keyed by the
API secret and updated in sequence with the timestamp, the API key, the
receive window and `serde_json::to_string(&params)`, all as UTF-8 bytes; the
digest is hex encoded. Each `update` call is modelled by appending to the
accumulated message, exactly the incremental-MAC semantics of the `hmac`
crate; `serde_json::to_string` on a string-keyed map cannot fail, so the `?`
never fires and the Rust `Ok` wrapper is dropped. -/
def generate_post_signature (timestamp api_key recv_window : String) (params : JsonFields)
    (api_secret : String) : String :=
  let msg : List Nat := []
  let msg := msg ++ utf8 timestamp
  let msg := msg ++ utf8 api_key
  let msg := msg ++ utf8 recv_window
  let msg := msg ++ utf8 (jsonObjToString params)
  hexEncode (hmacSha256 (utf8 api_secret) msg)

/-- Rust float literal `0.2`. -/
def lit02 : F64 := flit 2 10

/-- Rust float literal `0.25`. -/
def lit025 : F64 := flit 25 100

/-- Rust float literal `0.3`. -/
def lit03 : F64 := flit 3 10

/-- Rust float literal `1000.0`. -/
def lit1000 : F64 := flit 1000 1

/-- Rust float literal `2000.0`. -/
def lit2000 : F64 := flit 2000 1

/-- Position calculator `calculate_position`: three discount tiers below the
opening price, fixed notional sizes divided by the tier prices, then
symbol-specific formatting — `{:.6}` prices and `{:.0}` rounded sizes for
BEAMUSDT, `{:.5}` prices and `Display`-rendered rounded sizes for SEIUSDT and
AGIXUSDT, and `None` for every other symbol. -/
def calculate_position (price : F64) (symbol : String) : Option FormattedPosition :=
  let priceT : Price :=
    { twenty_percent_price := price.sub (price.mul lit02)
      twenty_five_percent_price := price.sub (price.mul lit025)
      thirty_percent_price := price.sub (price.mul lit03) }
  let size : Quantity :=
    { twenty_percent_size := lit1000.div priceT.twenty_percent_price
      twenty_five_percent_size := lit1000.div priceT.twenty_five_percent_price
      thirty_percent_size := lit2000.div priceT.thirty_percent_price }
  match symbol with
  | "BEAMUSDT" =>
    some
      { twenty_percent_price := fmtF64 6 priceT.twenty_percent_price
        twenty_five_percent_price := fmtF64 6 priceT.twenty_five_percent_price
        thirty_percent_price := fmtF64 6 priceT.thirty_percent_price
        twenty_percent_size := fmtF64 0 size.twenty_percent_size.roundHalfAway
        twenty_five_percent_size := fmtF64 0 size.twenty_five_percent_size.roundHalfAway
        thirty_percent_size := fmtF64 0 size.thirty_percent_size.roundHalfAway }
  | "SEIUSDT" =>
    some
      { twenty_percent_price := fmtF64 5 priceT.twenty_percent_price
        twenty_five_percent_price := fmtF64 5 priceT.twenty_five_percent_price
        thirty_percent_price := fmtF64 5 priceT.thirty_percent_price
        twenty_percent_size := displayF64 size.twenty_percent_size.roundHalfAway
        twenty_five_percent_size := displayF64 size.twenty_five_percent_size.roundHalfAway
        thirty_percent_size := displayF64 size.thirty_percent_size.roundHalfAway }
  | "AGIXUSDT" =>
    some
      { twenty_percent_price := fmtF64 5 priceT.twenty_percent_price
        twenty_five_percent_price := fmtF64 5 priceT.twenty_five_percent_price
        thirty_percent_price := fmtF64 5 priceT.thirty_percent_price
        twenty_percent_size := displayF64 size.twenty_percent_size.roundHalfAway
        twenty_five_percent_size := displayF64 size.twenty_five_percent_size.roundHalfAway
        thirty_percent_size := displayF64 size.thirty_percent_size.roundHalfAway }
  | _ => none

/-- serde serialization of one `OrderRequest` (fields in declaration order,
`order_type` renamed to `orderType`). -/
def orderRequestJson (o : OrderRequest) : Json :=
  .obj (.fcons "symbol" (.str o.symbol)
        (.fcons "side" (.str o.side)
         (.fcons "orderType" (.str o.order_type)
          (.fcons "qty" (.str o.qty)
           (.fcons "price" (.str o.price) .fnil)))))

/-- serde serialization of one `CancelOrderData` (`order_id` renamed to
`orderId`). -/
def cancelOrderJson (c : CancelOrderData) : Json :=
  .obj (.fcons "symbol" (.str c.symbol) (.fcons "orderId" (.str c.order_id) .fnil))

/-- The parameter map both POST bodies use: `category` inserted first with
value `"linear"`, then `request`; `serde_json::Map` keeps them in this (also
key-sorted) order. -/
def mkBodyParams (request : Json) : JsonFields :=
  .fcons "category" (.str "linear") (.fcons "request" request .fnil)

/-- The authentication headers common to both authenticated POSTs. -/
def authHeaders (api_key signature timestamp recv_window : String) : List (String × String) :=
  [("X-BAPI-API-KEY", api_key), ("X-BAPI-SIGN", signature), ("X-BAPI-SIGN-TYPE", "2"),
   ("X-BAPI-TIMESTAMP", timestamp), ("X-BAPI-RECV-WINDOW", recv_window),
   ("Content-Type", "application/json")]

/-- Order placement `place_batch_order`, as a function of its Rust arguments,
of the timestamp `Utc::now` produces, and of the decoded response to the POST
it sends. It panics (`expect`) when the price string does not parse as `f64`
or when `calculate_position` returns `None`; otherwise it builds the
three-tier buy batch, signs it, sends it (a transport or decode failure
becomes `Err` via `?`), and extracts the (symbol, orderId) pairs from the
response list. The built request is returned alongside so that theorems can
speak about the transmitted bytes. -/
def place_batch_order (api_key api_secret recv_window batch_order_url symbol price : String)
    (timestamp : String) (response : Except String (ApiResponse BatchOrderResult)) :
    Outcome (List CancelOrderData × PostRequest) :=
  match parseF64 price with
  | none => .panic "failed converting price to number"
  | some price_num =>
    match calculate_position price_num symbol with
    | none => .panic "Failed calculating position"
    | some position =>
      let parameters : List OrderRequest :=
        [{ symbol := symbol, side := "Buy", order_type := "Limit",
           qty := position.twenty_percent_size, price := position.twenty_percent_price },
         { symbol := symbol, side := "Buy", order_type := "Limit",
           qty := position.twenty_five_percent_size, price := position.twenty_five_percent_price },
         { symbol := symbol, side := "Buy", order_type := "Limit",
           qty := position.thirty_percent_size, price := position.thirty_percent_price }]
      let params := mkBodyParams (.arr (toJsonList (parameters.map orderRequestJson)))
      let signature := generate_post_signature timestamp api_key recv_window params api_secret
      let req : PostRequest :=
        { url := batch_order_url, body := jsonObjToString params,
          headers := authHeaders api_key signature timestamp recv_window }
      match response with
      | .error e => .err e
      | .ok response_data =>
        .ok (response_data.result.list.map
              (fun order_response =>
                { symbol := order_response.symbol, order_id := order_response.order_id }),
            req)

/-- Order cancellation `cancel_batch_order`, as a function of its Rust
arguments, the timestamp, and the raw text outcome of the POST (`Err` for a
transport failure of `send().await?` or `text().await?`). The cancel payload
serializes exactly the supplied records; the built request is returned for
the theorems. -/
def cancel_batch_order (api_key api_secret recv_window batch_cancel_order_url : String)
    (cancel_order_data : List CancelOrderData) (timestamp : String)
    (response : Except String String) : Outcome PostRequest :=
  let params := mkBodyParams (.arr (toJsonList (cancel_order_data.map cancelOrderJson)))
  let signature := generate_post_signature timestamp api_key recv_window params api_secret
  let req : PostRequest :=
    { url := batch_cancel_order_url, body := jsonObjToString params,
      headers := authHeaders api_key signature timestamp recv_window }
  match response with
  | .error e => .err e
  | .ok _ => .ok req

/-! ## The main scheduler loop

One iteration of `main`'s `loop` is a pure function of an environment that
supplies everything the outside world contributes to that iteration: the
decoded candlestick response per symbol, the decoded batch-order response per
symbol, the outcome of the cancel POST, and the timestamps `Utc::now` yields.
An `Outcome CycleTrace` records either the iteration's observable effects or
the message of the panic that terminated the process. Iterating the loop maps
`runCycle` over successive environments until a panic (or an impossible bare
`Err`) stops everything. -/

/-- Configuration read from the environment at startup. -/
structure Config where
  api_key : String
  api_secret : String
  batch_order_url : String
  batch_cancel_order_url : String

/-- The hardcoded receive window of `main`. -/
def recv_window : String := "10000"

/-- The symbol list rebuilt at the top of every loop iteration. -/
def mainSymbols : List String := ["BEAMUSDT", "SEIUSDT", "AGIXUSDT"]

/-- Everything the outside world feeds into one loop iteration. -/
structure CycleEnv where
  klineResp : String → Except String (ApiResponse KlineData)
  orderResp : String → Except String (ApiResponse BatchOrderResult)
  cancelResp : Except String String
  placeTs : String → String
  cancelTs : String

/-- Observable effects of one completed loop iteration. -/
structure CycleTrace where
  placedSymbols : List String
  placedRequests : List PostRequest
  cancel_order_data : List CancelOrderData
  cancelRequest : Option PostRequest

/-- First panic among a list of fetch outcomes. `futures::future::join_all`
drives every fetch future; a panicking one aborts the process when polled,
and the fetches are polled in list order. -/
def firstPanic {α} : List (Outcome α) → Option String
  | [] => none
  | .panic m :: _ => some m
  | _ :: rest => firstPanic rest

/-- The `for result in results` body of `main`: `Err` results are skipped by
the `if let Ok`, each `Ok (symbol, open_price)` places a batch order whose
`Err` is turned into a panic by `.expect("Error placing order")`, and the
returned records are appended (`extend`) to the running cancel list.
Returns the symbols placed, the requests sent, and the accumulated
`cancel_order_data`. -/
def placeLoop (cfg : Config) (env : CycleEnv) :
    List (Except String (String × String)) →
    Outcome (List String × List PostRequest × List CancelOrderData)
  | [] => .ok ([], [], [])
  | .error _ :: rest => placeLoop cfg env rest
  | .ok (symbol, open_price) :: rest =>
    match place_batch_order cfg.api_key cfg.api_secret recv_window cfg.batch_order_url symbol
        open_price (env.placeTs symbol) (env.orderResp symbol) with
    | .panic m => .panic m
    | .err _ => .panic "Error placing order"
    | .ok (cancel_data, req) =>
      match placeLoop cfg env rest with
      | .panic m => .panic m
      | .err e => .err e
      | .ok (syms, reqs, acc) => .ok (symbol :: syms, req :: reqs, cancel_data ++ acc)

/-- One iteration of `main`'s `loop`: fetch all symbols concurrently and join,
place orders for the successful fetches, sleep 24 h, and — only when the
cancel list is nonempty — cancel, where a cancellation `Err` is turned into a
panic by `.expect("Failed canceling orders")`; then sleep 60 s. -/
def runCycle (cfg : Config) (env : CycleEnv) : Outcome CycleTrace :=
  match firstPanic (mainSymbols.map fun s => get_kline s (env.klineResp s)) with
  | some m => .panic m
  | none =>
    match placeLoop cfg env ((mainSymbols.map fun s =>
        get_kline s (env.klineResp s)).map Outcome.toExcept) with
    | .panic m => .panic m
    | .err e => .err e
    | .ok (syms, reqs, cancel_order_data) =>
      if cancel_order_data.isEmpty then
        .ok { placedSymbols := syms, placedRequests := reqs,
              cancel_order_data := cancel_order_data, cancelRequest := none }
      else
        match cancel_batch_order cfg.api_key cfg.api_secret recv_window
            cfg.batch_cancel_order_url cancel_order_data env.cancelTs env.cancelResp with
        | .panic m => .panic m
        | .err _ => .panic "Failed canceling orders"
        | .ok req =>
          .ok { placedSymbols := syms, placedRequests := reqs,
                cancel_order_data := cancel_order_data, cancelRequest := some req }

/-- The infinite `loop` of `main`, run against a (finite prefix of a) stream
of per-iteration environments: iterations accumulate traces until one
panics, whose message ends the run. -/
def runLoop (cfg : Config) : List CycleEnv → List CycleTrace × Option String
  | [] => ([], none)
  | env :: rest =>
    match runCycle cfg env with
    | .ok tr =>
      let t := runLoop cfg rest
      (tr :: t.1, t.2)
    | .err e => ([], some e)
    | .panic m => ([], some m)

/-! ## Predicates used by the theorem statements -/

/-- Whether a double is finite. -/
def F64.isFinite : F64 → Bool
  | .finite _ _ => true
  | _ => false

/-- Characters after the first `'.'`, if any. -/
def afterPoint (cs : List Char) : Option (List Char) :=
  match cs.dropWhile (· ≠ '.') with
  | [] => none
  | _ :: t => some t

/-- Number of characters after the first decimal point of a rendered number
(`none` when there is no point). -/
def decimalDigitsAfterPoint (s : String) : Option Nat := (afterPoint s.data).map List.length

/-- Whether a string is a plain base-10 integer: an optional leading minus
sign followed by one or more digits and nothing else (in particular not
`"inf"` and not containing a decimal point). -/
def isIntegerString (s : String) : Bool :=
  match s.data with
  | '-' :: t => !t.isEmpty && t.all Char.isDigit
  | t => !t.isEmpty && t.all Char.isDigit

/-- Lowercase hexadecimal alphabet membership: a decimal digit or a letter
between `'a'` and `'f'`. -/
def isLowerHexChar (c : Char) : Bool :=
  (('0' ≤ c) && (c ≤ '9')) || (('a' ≤ c) && (c ≤ 'f'))

/-- The (symbol, orderId) records `place_batch_order` extracts from a decoded
placement response; nothing is extracted from a failed exchange call. -/
def extractRecords : Except String (ApiResponse BatchOrderResult) → List CancelOrderData
  | .error _ => []
  | .ok r => r.result.list.map fun o => { symbol := o.symbol, order_id := o.order_id }

/-- Symbol of a successful fetch result, skipping failed fetches. -/
def okSymbol : Except String (String × String) → Option String
  | .ok (s, _) => some s
  | .error _ => none

/-! ## Concrete fixtures for witnesses and counterexamples -/

/-- A concrete configuration. -/
def cfgW : Config :=
  { api_key := "key", api_secret := "secret", batch_order_url := "https://x/order",
    batch_cancel_order_url := "https://x/cancel" }

/-- A concrete candle whose opening price is `2.00`. -/
def klineW : Kline :=
  { start_time := "1700000000000", open_price := "2.00", high_price := "2.10", low_price := "1.90",
    close_price := "2.05", volume := "1", turnover := "2" }

/-- A decoded candlestick response with one candle. -/
def klineApiW (symbol : String) : ApiResponse KlineData :=
  { ret_code := 0, ret_msg := "OK", result := { symbol := symbol, category := "linear", list := [klineW] },
    ret_ext_info := [], time := 1 }

/-- A decoded candlestick response whose candle list is empty. -/
def klineApiEmptyW (symbol : String) : ApiResponse KlineData :=
  { ret_code := 0, ret_msg := "OK", result := { symbol := symbol, category := "linear", list := [] },
    ret_ext_info := [], time := 1 }

/-- A decoded batch-order response carrying one exchange-assigned order id. -/
def orderApiW (symbol : String) : ApiResponse BatchOrderResult :=
  { ret_code := 0, ret_msg := "OK",
    result := { list := [{ category := "linear", symbol := symbol, order_id := "oid-1",
                           order_link_id := "", create_at := "1" }] },
    ret_ext_info := [], time := 1 }

/-- An environment in which every exchange interaction succeeds. -/
def envOkW : CycleEnv :=
  { klineResp := fun s => .ok (klineApiW s), orderResp := fun s => .ok (orderApiW s),
    cancelResp := .ok "{}", placeTs := fun _ => "111", cancelTs := "222" }

/-- An environment whose SEIUSDT candle list is empty and otherwise succeeds. -/
def envEmptySeiW : CycleEnv :=
  { klineResp := fun s => if s = "SEIUSDT" then .ok (klineApiEmptyW s) else .ok (klineApiW s),
    orderResp := fun s => .ok (orderApiW s), cancelResp := .ok "{}", placeTs := fun _ => "111",
    cancelTs := "222" }

/-- An environment whose order-placement POSTs fail at the transport layer. -/
def envOrderFailW : CycleEnv :=
  { klineResp := fun s => .ok (klineApiW s), orderResp := fun _ => .error "connection reset",
    cancelResp := .ok "{}", placeTs := fun _ => "111", cancelTs := "222" }

/-- An environment whose cancel POST fails at the transport layer. -/
def envCancelFailW : CycleEnv :=
  { klineResp := fun s => .ok (klineApiW s), orderResp := fun s => .ok (orderApiW s),
    cancelResp := .error "connection reset", placeTs := fun _ => "111", cancelTs := "222" }

/-- A concrete candle whose opening price is malformed. -/
def klineBadW : Kline :=
  { start_time := "1700000000000", open_price := "2,00", high_price := "2.10", low_price := "1.90",
    close_price := "2.05", volume := "1", turnover := "2" }

/-- A decoded candlestick response whose only candle has a malformed price. -/
def klineApiBadW (symbol : String) : ApiResponse KlineData :=
  { ret_code := 0, ret_msg := "OK", result := { symbol := symbol, category := "linear", list := [klineBadW] },
    ret_ext_info := [], time := 1 }

/-- An environment whose candles carry a malformed opening price. -/
def envBadPriceW : CycleEnv :=
  { klineResp := fun s => .ok (klineApiBadW s), orderResp := fun s => .ok (orderApiW s),
    cancelResp := .ok "{}", placeTs := fun _ => "111", cancelTs := "222" }

/-- Default trace used to read components of a known-`ok` outcome. -/
def traceD : CycleTrace :=
  { placedSymbols := [], placedRequests := [], cancel_order_data := [], cancelRequest := none }

/-- Default placement result used to read components of a known-`ok` outcome. -/
def placedD : List CancelOrderData × PostRequest := ([], { url := "", body := "", headers := [] })

/-- Default POST request used to read components of a known-`ok` outcome. -/
def postD : PostRequest := { url := "", body := "", headers := [] }

/-! ## Helper lemmas -/

theorem digitChar_isDigit (n : Nat) : (digitChar n).isDigit = true := by
  have h : n % 10 < 10 := Nat.mod_lt _ (by norm_num)
  have : ∀ r, r < 10 → (Char.ofNat (48 + r)).isDigit = true := by decide
  exact this _ h

theorem natDigitsAux_digits (fuel n : Nat) : (natDigitsAux fuel n).all Char.isDigit = true := by
  induction fuel generalizing n with
  | zero => rfl
  | succ fuel ih =>
    simp only [natDigitsAux]
    split
    · simp [digitChar_isDigit]
    · simp [List.all_append, ih, digitChar_isDigit]

theorem natDigits_digits (n : Nat) : (natDigits n).all Char.isDigit = true :=
  natDigitsAux_digits _ _

theorem natDigitsAux_ne_nil (fuel n : Nat) (h : 0 < fuel) : natDigitsAux fuel n ≠ [] := by
  cases fuel with
  | zero => exact absurd h (by norm_num)
  | succ fuel =>
    simp only [natDigitsAux]
    split
    · simp
    · simp

theorem natDigits_ne_nil (n : Nat) : natDigits n ≠ [] :=
  natDigitsAux_ne_nil _ _ (Nat.succ_pos n)

theorem fracDigits_length (k n : Nat) : (fracDigits k n).length = k := by
  induction k generalizing n with
  | zero => rfl
  | succ k ih => simp [fracDigits, ih]

theorem fracDigits_digits (k n : Nat) : (fracDigits k n).all Char.isDigit = true := by
  induction k generalizing n with
  | zero => rfl
  | succ k ih => simp [fracDigits, List.all_append, ih, digitChar_isDigit]

theorem isDigit_ne_dot {c : Char} (h : c.isDigit = true) : c ≠ '.' := by
  intro hc
  subst hc
  exact absurd h (by decide)

theorem afterPoint_append (pre post : List Char) (h : ∀ c ∈ pre, c ≠ '.') :
    afterPoint (pre ++ '.' :: post) = some post := by
  induction pre with
  | nil => rfl
  | cons c t ih =>
    have hc : c ≠ '.' := h c (List.mem_cons_self ..)
    have ht : ∀ x ∈ t, x ≠ '.' := fun x hx => h x (List.mem_cons_of_mem _ hx)
    simpa [afterPoint, List.dropWhile, hc] using ih ht

theorem afterPoint_of_no_dot (cs : List Char) (h : ∀ c ∈ cs, c ≠ '.') :
    afterPoint cs = none := by
  induction cs with
  | nil => rfl
  | cons c t ih =>
    have hc : c ≠ '.' := h c (List.mem_cons_self ..)
    have ht := ih fun x hx => h x (List.mem_cons_of_mem _ hx)
    simpa [afterPoint, List.dropWhile, hc] using ht

theorem hexDigitChar_lower {n : Nat} (h : n < 16) : isLowerHexChar (hexDigitChar n) = true := by
  revert h
  revert n
  decide

theorem hexEncode_lower (bs : List Nat) : (hexEncode bs).data.all isLowerHexChar = true := by
  have hdata : (hexEncode bs).data =
      bs.flatMap fun b => [hexDigitChar (b / 16 % 16), hexDigitChar (b % 16)] := rfl
  rw [hdata, List.all_eq_true]
  intro c hc
  rw [List.mem_flatMap] at hc
  obtain ⟨b, -, hb⟩ := hc
  have h16 : (16 : Nat) ≠ 0 := by norm_num
  rcases List.mem_cons.mp hb with hb1 | hb2
  · exact hb1 ▸ hexDigitChar_lower (Nat.mod_lt _ (Nat.pos_of_ne_zero h16))
  · rcases List.mem_cons.mp hb2 with hb3 | hb4
    · exact hb3 ▸ hexDigitChar_lower (Nat.mod_lt _ (Nat.pos_of_ne_zero h16))
    · exact absurd hb4 (List.not_mem_nil c)

theorem utf8_append (a b : String) : utf8 (a ++ b) = utf8 a ++ utf8 b := by
  simp [utf8, String.data_append]

/-- The signer computes the HMAC of the plain concatenation of its pieces:
the incremental `update` calls append, so the digest is over
`timestamp ‖ api_key ‖ recv_window ‖ serde_json::to_string(params)`. -/
theorem generate_post_signature_concat (timestamp api_key recv_window : String)
    (params : JsonFields) (api_secret : String) :
    generate_post_signature timestamp api_key recv_window params api_secret =
      hexEncode (hmacSha256 (utf8 api_secret)
        (utf8 timestamp ++ utf8 api_key ++ utf8 recv_window ++ utf8 (jsonObjToString params))) := by
  simp [generate_post_signature, List.append_assoc]

theorem outcome_eq_ok {α : Type} (o : Outcome α) (d : α) (h : o.isOk = true) :
    o = .ok (o.getOk d) := by
  cases o with
  | ok a => rfl
  | err e => exact absurd h (by simp [Outcome.isOk])
  | panic m => exact absurd h (by simp [Outcome.isOk])

theorem isIntegerString_cond (c : Prop) [Decidable c] (k : Nat) :
    isIntegerString (String.mk ((if c then ['-'] else []) ++ natDigits k)) = true := by
  split
  · simpa [isIntegerString] using And.intro (natDigits_ne_nil k) (natDigits_digits k)
  · rcases hnd : natDigits k with _ | ⟨d, ds⟩
    · exact absurd hnd (natDigits_ne_nil k)
    · have hdig : (d :: ds).all Char.isDigit = true := hnd ▸ natDigits_digits k
      have hd : d.isDigit = true := by
        have := List.all_eq_true.mp hdig d (List.mem_cons_self ..)
        simpa using this
      have hne : d ≠ '-' := by
        intro hc
        subst hc
        exact absurd hd (by decide)
      simp only [List.nil_append, isIntegerString]
      split
      · rename_i t heq
        exact absurd (List.head_eq_of_cons_eq heq) hne
      · simpa using hdig

theorem fmt_finite_decimals (prec : Nat) (hp : prec ≠ 0) (m e : Int) :
    decimalDigitsAfterPoint (fmtF64 prec (.finite m e)) = some prec := by
  have hpre : ∀ c ∈ (if m < 0 then ['-'] else []) ++
      natDigits ((if 0 ≤ e then m.natAbs * pow2 e.toNat * pow10 prec
        else roundHalfEvenNat (m.natAbs * pow10 prec) (pow2 (-e).toNat)) / pow10 prec), c ≠ '.' := by
    intro c hc
    rcases List.mem_append.mp hc with hs | hd
    · split at hs
      · rcases List.mem_singleton.mp hs with rfl
        decide
      · exact absurd hs (List.not_mem_nil c)
    · exact isDigit_ne_dot (by simpa using List.all_eq_true.mp (natDigits_digits _) c hd)
  calc decimalDigitsAfterPoint (fmtF64 prec (.finite m e))
      = (afterPoint (((if m < 0 then ['-'] else []) ++ natDigits _) ++
          '.' :: fracDigits prec _)).map List.length := by
        simp only [fmtF64, decimalDigitsAfterPoint, hp, if_false, List.append_assoc]
        rfl
    _ = some prec := by
        rw [afterPoint_append _ _ hpre]
        simp [fracDigits_length]

theorem fmt0_integer (m e : Int) : isIntegerString (fmtF64 0 (.finite m e)) = true := by
  have h := isIntegerString_cond (m < 0)
      ((if 0 ≤ e then m.natAbs * pow2 e.toNat * pow10 0
        else roundHalfEvenNat (m.natAbs * pow10 0) (pow2 (-e).toNat)) / pow10 0)
  simpa [fmtF64] using h

theorem display_round_integer (m e : Int) :
    isIntegerString (displayF64 (F64.roundHalfAway (.finite m e))) = true := by
  by_cases he : 0 ≤ e
  · have h := isIntegerString_cond (m < 0) (m.natAbs * pow2 e.toNat)
    simpa [F64.roundHalfAway, he, displayF64] using h
  · have h := isIntegerString_cond
      ((if m < 0 then
          -(((if pow2 (-e).toNat ≤ 2 * (m.natAbs % pow2 (-e).toNat) then
              m.natAbs / pow2 (-e).toNat + 1 else m.natAbs / pow2 (-e).toNat) : Nat) : Int)
        else (((if pow2 (-e).toNat ≤ 2 * (m.natAbs % pow2 (-e).toNat) then
              m.natAbs / pow2 (-e).toNat + 1 else m.natAbs / pow2 (-e).toNat) : Nat) : Int)) < 0)
      (((if m < 0 then
          -(((if pow2 (-e).toNat ≤ 2 * (m.natAbs % pow2 (-e).toNat) then
              m.natAbs / pow2 (-e).toNat + 1 else m.natAbs / pow2 (-e).toNat) : Nat) : Int)
        else (((if pow2 (-e).toNat ≤ 2 * (m.natAbs % pow2 (-e).toNat) then
              m.natAbs / pow2 (-e).toNat + 1 else m.natAbs / pow2 (-e).toNat) : Nat) : Int)) : Int).natAbs *
        pow2 ((0 : Int)).toNat)
    simpa [F64.roundHalfAway, he, displayF64] using h

theorem calculate_position_unsupported (price : F64) (symbol : String)
    (h1 : symbol ≠ "BEAMUSDT") (h2 : symbol ≠ "SEIUSDT") (h3 : symbol ≠ "AGIXUSDT") :
    calculate_position price symbol = none := by
  unfold calculate_position
  split
  · exact absurd rfl h1
  · exact absurd rfl h2
  · exact absurd rfl h3
  · rfl

theorem calculate_position_supported (price : F64) (symbol : String)
    (h : symbol = "BEAMUSDT" ∨ symbol = "SEIUSDT" ∨ symbol = "AGIXUSDT") :
    (calculate_position price symbol).isSome = true := by
  rcases h with rfl | rfl | rfl <;> rfl

theorem place_ok_records (api_key api_secret rw url symbol price ts : String)
    (resp : Except String (ApiResponse BatchOrderResult)) (rec : List CancelOrderData)
    (req : PostRequest)
    (h : place_batch_order api_key api_secret rw url symbol price ts resp = .ok (rec, req)) :
    rec = extractRecords resp := by
  cases resp with
  | error e =>
    unfold place_batch_order at h
    split at h
    · exact absurd h (by simp)
    · split at h
      · exact absurd h (by simp)
      · exact absurd h (by simp)
  | ok response_data =>
    unfold place_batch_order at h
    split at h
    · exact absurd h (by simp)
    · split at h
      · exact absurd h (by simp)
      · simp only [Outcome.ok.injEq, Prod.mk.injEq] at h
        obtain ⟨h1, -⟩ := h
        simp [← h1, extractRecords]

theorem place_ok_signed (api_key api_secret rw url symbol price ts : String)
    (resp : Except String (ApiResponse BatchOrderResult)) (rec : List CancelOrderData)
    (req : PostRequest)
    (h : place_batch_order api_key api_secret rw url symbol price ts resp = .ok (rec, req)) :
    ("X-BAPI-SIGN", hexEncode (hmacSha256 (utf8 api_secret)
      (utf8 ts ++ utf8 api_key ++ utf8 rw ++ utf8 req.body))) ∈ req.headers := by
  cases resp with
  | error e =>
    unfold place_batch_order at h
    split at h
    · exact absurd h (by simp)
    · split at h
      · exact absurd h (by simp)
      · exact absurd h (by simp)
  | ok response_data =>
    unfold place_batch_order at h
    split at h
    · exact absurd h (by simp)
    · split at h
      · exact absurd h (by simp)
      · simp only [Outcome.ok.injEq, Prod.mk.injEq] at h
        obtain ⟨-, h2⟩ := h
        rw [← h2]
        rw [← generate_post_signature_concat]
        simp [authHeaders]

theorem cancel_ok_signed (api_key api_secret rw url : String) (records : List CancelOrderData)
    (ts : String) (resp : Except String String) (req : PostRequest)
    (h : cancel_batch_order api_key api_secret rw url records ts resp = .ok req) :
    ("X-BAPI-SIGN", hexEncode (hmacSha256 (utf8 api_secret)
      (utf8 ts ++ utf8 api_key ++ utf8 rw ++ utf8 req.body))) ∈ req.headers := by
  unfold cancel_batch_order at h
  split at h
  · exact absurd h (by simp)
  · cases h
    rw [← generate_post_signature_concat]
    simp [authHeaders]

theorem cancel_ok_body (api_key api_secret rw url : String) (records : List CancelOrderData)
    (ts : String) (resp : Except String String) (req : PostRequest)
    (h : cancel_batch_order api_key api_secret rw url records ts resp = .ok req) :
    req.body = jsonObjToString (mkBodyParams (.arr (toJsonList (records.map cancelOrderJson)))) := by
  unfold cancel_batch_order at h
  split at h
  · exact absurd h (by simp)
  · cases h
    rfl

theorem placeLoop_records (cfg : Config) (env : CycleEnv)
    (results : List (Except String (String × String))) :
    ∀ syms reqs recs, placeLoop cfg env results = .ok (syms, reqs, recs) →
      recs = syms.flatMap fun s => extractRecords (env.orderResp s) := by
  induction results with
  | nil =>
    intro syms reqs recs h
    simp only [placeLoop] at h
    cases h
    rfl
  | cons r rest ih =>
    intro syms reqs recs h
    cases r with
    | error e =>
      simp only [placeLoop] at h
      exact ih _ _ _ h
    | ok pr =>
      obtain ⟨sym, op⟩ := pr
      simp only [placeLoop] at h
      cases hplace : place_batch_order cfg.api_key cfg.api_secret recv_window cfg.batch_order_url
          sym op (env.placeTs sym) (env.orderResp sym) with
      | panic m => rw [hplace] at h; exact absurd h (by simp)
      | err e => rw [hplace] at h; exact absurd h (by simp)
      | ok cdreq =>
        obtain ⟨cd, req0⟩ := cdreq
        rw [hplace] at h
        cases hrest : placeLoop cfg env rest with
        | panic m => rw [hrest] at h; exact absurd h (by simp)
        | err e => rw [hrest] at h; exact absurd h (by simp)
        | ok out =>
          obtain ⟨syms', reqs', recs'⟩ := out
          rw [hrest] at h
          simp only [Outcome.ok.injEq, Prod.mk.injEq] at h
          obtain ⟨h1, -, h3⟩ := h
          subst h1
          rw [← h3]
          have hc := place_ok_records _ _ _ _ _ _ _ _ _ _ hplace
          have hr := ih _ _ _ hrest
          simp [hc, hr]

theorem runLoop_panic_stop (cfg : Config) (env : CycleEnv) (rest : List CycleEnv) (m : String)
    (h : runCycle cfg env = .panic m) : runLoop cfg (env :: rest) = ([], some m) := by
  simp [runLoop, h]

theorem runCycle_ok_core (cfg : Config) (env : CycleEnv) (tr : CycleTrace)
    (h : runCycle cfg env = .ok tr) :
    ∃ reqs, placeLoop cfg env ((mainSymbols.map fun s => get_kline s (env.klineResp s)).map
        Outcome.toExcept) = .ok (tr.placedSymbols, reqs, tr.cancel_order_data) ∧
      (tr.cancel_order_data.isEmpty = true → tr.cancelRequest = none) ∧
      (tr.cancel_order_data.isEmpty = false → ∃ req, tr.cancelRequest = some req ∧
        cancel_batch_order cfg.api_key cfg.api_secret recv_window cfg.batch_cancel_order_url
          tr.cancel_order_data env.cancelTs env.cancelResp = .ok req) := by
  unfold runCycle at h
  split at h
  · exact absurd h (by simp)
  · split at h
    · exact absurd h (by simp)
    · exact absurd h (by simp)
    · rename_i syms reqs recs hloop
      split at h
      · rename_i hemp
        cases h
        exact ⟨reqs, hloop, fun _ => rfl, fun hf => absurd hemp (by simp [hf])⟩
      · rename_i hemp
        split at h
        · exact absurd h (by simp)
        · exact absurd h (by simp)
        · rename_i req hcancel
          cases h
          exact ⟨reqs, hloop, fun ht => absurd ht hemp, fun _ => ⟨req, rfl, hcancel⟩⟩

theorem runCycle_ok_records (cfg : Config) (env : CycleEnv) (tr : CycleTrace)
    (h : runCycle cfg env = .ok tr) :
    tr.cancel_order_data = tr.placedSymbols.flatMap fun s => extractRecords (env.orderResp s) := by
  obtain ⟨reqs, hloop, -, -⟩ := runCycle_ok_core cfg env tr h
  exact placeLoop_records _ _ _ _ _ _ hloop

theorem runCycle_ok_cancel (cfg : Config) (env : CycleEnv) (tr : CycleTrace)
    (h : runCycle cfg env = .ok tr) :
    (tr.cancel_order_data = [] ↔ tr.cancelRequest = none) ∧
      ∀ req, tr.cancelRequest = some req →
        req.body = jsonObjToString (mkBodyParams
          (.arr (toJsonList (tr.cancel_order_data.map cancelOrderJson)))) := by
  obtain ⟨reqs, -, hemp, hne⟩ := runCycle_ok_core cfg env tr h
  by_cases hd : tr.cancel_order_data.isEmpty
  · refine ⟨⟨fun _ => hemp hd, fun _ => List.isEmpty_iff.mp hd⟩, ?_⟩
    intro req hreq
    rw [hemp hd] at hreq
    exact absurd hreq (by simp)
  · obtain ⟨req, hsome, hcancel⟩ := hne (by simpa using hd)
    refine ⟨⟨fun hrec => absurd hrec (by simpa using hd), ?_⟩, ?_⟩
    · intro hnone
      rw [hsome] at hnone
      exact absurd hnone (by simp)
    · intro req' hreq'
      have : req = req' := by rw [hsome] at hreq'; simpa using hreq'
      subst this
      exact cancel_ok_body _ _ _ _ _ _ _ _ hcancel

theorem firstPanic_nopanic {α : Type} (l : List (Outcome α)) (h : ∀ o ∈ l, o.isPanic = false) :
    firstPanic l = none := by
  induction l with
  | nil => rfl
  | cons o rest ih =>
    have ht := ih fun x hx => h x (List.mem_cons_of_mem _ hx)
    cases o with
    | ok a => simpa [firstPanic] using ht
    | err e => simpa [firstPanic] using ht
    | panic m => exact absurd (h _ (List.mem_cons_self ..)) (by simp [Outcome.isPanic])

theorem get_kline_ok (s : String) (api : ApiResponse KlineData) (k : Kline)
    (hk : api.result.list.head? = some k) :
    get_kline s (.ok api) = .ok (s, k.open_price) := by
  simp [get_kline, hk]

theorem get_kline_empty (s : String) (api : ApiResponse KlineData)
    (hk : api.result.list = []) :
    get_kline s (.ok api) = .panic "called `Option::unwrap()` on a `None` value" := by
  simp [get_kline, hk]

theorem get_kline_err (s e : String) : get_kline s (.error e) = .err e := rfl

theorem place_error_err (api_key api_secret rw url symbol price ts eo : String) (p : F64)
    (hp : parseF64 price = some p) (hs : (calculate_position p symbol).isSome = true) :
    place_batch_order api_key api_secret rw url symbol price ts (.error eo) = .err eo := by
  cases hcp : calculate_position p symbol with
  | none => rw [hcp] at hs; exact absurd hs (by simp)
  | some pos => simp [place_batch_order, hp, hcp]

theorem place_none_panic (api_key api_secret rw url symbol price ts : String)
    (resp : Except String (ApiResponse BatchOrderResult))
    (hp : parseF64 price = none) :
    place_batch_order api_key api_secret rw url symbol price ts resp =
      .panic "failed converting price to number" := by
  simp [place_batch_order, hp]

theorem place_unsupported_panic (api_key api_secret rw url symbol price ts : String)
    (resp : Except String (ApiResponse BatchOrderResult)) (p : F64)
    (hp : parseF64 price = some p)
    (h1 : symbol ≠ "BEAMUSDT") (h2 : symbol ≠ "SEIUSDT") (h3 : symbol ≠ "AGIXUSDT") :
    place_batch_order api_key api_secret rw url symbol price ts resp =
      .panic "Failed calculating position" := by
  simp [place_batch_order, hp, calculate_position_unsupported p symbol h1 h2 h3]

theorem place_isOk (api_key api_secret rw url symbol price ts : String)
    (od : ApiResponse BatchOrderResult) (p : F64) (pos : FormattedPosition)
    (hp : parseF64 price = some p) (hcp : calculate_position p symbol = some pos) :
    (place_batch_order api_key api_secret rw url symbol price ts (.ok od)).isOk = true := by
  simp [place_batch_order, hp, hcp, Outcome.isOk]

theorem cancel_error_err (api_key api_secret rw url : String) (records : List CancelOrderData)
    (ts e : String) :
    cancel_batch_order api_key api_secret rw url records ts (.error e) = .err e := rfl

theorem placeLoop_skip_err (cfg : Config) (env : CycleEnv) (e : String)
    (rest : List (Except String (String × String))) :
    placeLoop cfg env (.error e :: rest) = placeLoop cfg env rest := rfl

theorem placeLoop_orderfail_panic (cfg : Config) (env : CycleEnv) (sym op eo : String)
    (rest : List (Except String (String × String))) (p : F64)
    (hp : parseF64 op = some p) (hs : (calculate_position p sym).isSome = true)
    (ho : env.orderResp sym = .error eo) :
    placeLoop cfg env (.ok (sym, op) :: rest) = .panic "Error placing order" := by
  have hpl := place_error_err cfg.api_key cfg.api_secret recv_window cfg.batch_order_url
    sym op (env.placeTs sym) eo p hp hs
  simp only [placeLoop, ho, hpl]

theorem placeLoop_badprice_panic (cfg : Config) (env : CycleEnv) (sym op : String)
    (rest : List (Except String (String × String)))
    (hp : parseF64 op = none) :
    placeLoop cfg env (.ok (sym, op) :: rest) =
      .panic "failed converting price to number" := by
  have hpl := place_none_panic cfg.api_key cfg.api_secret recv_window cfg.batch_order_url
    sym op (env.placeTs sym) (env.orderResp sym) hp
  simp only [placeLoop, hpl]

theorem placeLoop_isOk (cfg : Config) (env : CycleEnv)
    (results : List (Except String (String × String)))
    (h : ∀ r ∈ results, ∀ s op, r = .ok (s, op) →
      (place_batch_order cfg.api_key cfg.api_secret recv_window cfg.batch_order_url s op
        (env.placeTs s) (env.orderResp s)).isOk = true) :
    (placeLoop cfg env results).isOk = true := by
  induction results with
  | nil => rfl
  | cons r rest ih =>
    have ht := ih fun x hx s op hs => h x (List.mem_cons_of_mem _ hx) s op hs
    cases r with
    | error e => simpa [placeLoop] using ht
    | ok pr =>
      obtain ⟨sym, op⟩ := pr
      have hpl := h _ (List.mem_cons_self ..) sym op rfl
      cases hplace : place_batch_order cfg.api_key cfg.api_secret recv_window cfg.batch_order_url
          sym op (env.placeTs sym) (env.orderResp sym) with
      | panic m => rw [hplace] at hpl; exact absurd hpl (by simp [Outcome.isOk])
      | err e => rw [hplace] at hpl; exact absurd hpl (by simp [Outcome.isOk])
      | ok cdreq =>
        obtain ⟨cd, req0⟩ := cdreq
        cases hrest : placeLoop cfg env rest with
        | panic m => rw [hrest] at ht; exact absurd ht (by simp [Outcome.isOk])
        | err e => rw [hrest] at ht; exact absurd ht (by simp [Outcome.isOk])
        | ok out =>
          obtain ⟨syms', reqs', recs'⟩ := out
          simp [placeLoop, hplace, hrest, Outcome.isOk]

theorem placeLoop_ok_syms (cfg : Config) (env : CycleEnv)
    (results : List (Except String (String × String))) :
    ∀ syms reqs recs, placeLoop cfg env results = .ok (syms, reqs, recs) →
      syms = results.filterMap okSymbol := by
  induction results with
  | nil =>
    intro syms reqs recs h
    simp only [placeLoop] at h
    cases h
    rfl
  | cons r rest ih =>
    intro syms reqs recs h
    cases r with
    | error e =>
      simp only [placeLoop] at h
      simpa [okSymbol] using ih _ _ _ h
    | ok pr =>
      obtain ⟨sym, op⟩ := pr
      simp only [placeLoop] at h
      cases hplace : place_batch_order cfg.api_key cfg.api_secret recv_window cfg.batch_order_url
          sym op (env.placeTs sym) (env.orderResp sym) with
      | panic m => rw [hplace] at h; exact absurd h (by simp)
      | err e => rw [hplace] at h; exact absurd h (by simp)
      | ok cdreq =>
        obtain ⟨cd, req0⟩ := cdreq
        rw [hplace] at h
        cases hrest : placeLoop cfg env rest with
        | panic m => rw [hrest] at h; exact absurd h (by simp)
        | err e => rw [hrest] at h; exact absurd h (by simp)
        | ok out =>
          obtain ⟨syms', reqs', recs'⟩ := out
          rw [hrest] at h
          simp only [Outcome.ok.injEq, Prod.mk.injEq] at h
          obtain ⟨h1, -, -⟩ := h
          simp [← h1, okSymbol, ih _ _ _ hrest]

theorem firstPanic_main_none (env : CycleEnv)
    (hB : (get_kline "BEAMUSDT" (env.klineResp "BEAMUSDT")).isPanic = false)
    (hS : (get_kline "SEIUSDT" (env.klineResp "SEIUSDT")).isPanic = false)
    (hA : (get_kline "AGIXUSDT" (env.klineResp "AGIXUSDT")).isPanic = false) :
    firstPanic (mainSymbols.map fun s => get_kline s (env.klineResp s)) = none := by
  simp only [mainSymbols, List.map_cons, List.map_nil]
  refine firstPanic_nopanic _ ?_
  intro o ho
  simp only [List.mem_cons, List.not_mem_nil, or_false] at ho
  rcases ho with rfl | rfl | rfl
  · exact hB
  · exact hS
  · exact hA

/-! ## The claims -/

/-- C1: for every millisecond timestamp string, API key, receive-window
string, JSON body (a map with keys `category` then `request`) and API secret,
the signer returns the lowercase hexadecimal encoding of the HMAC-SHA256
digest, keyed by the API secret, of the byte concatenation of the timestamp,
the API key, the receive window and the serde_json serialization of the body,
in that order. -/
theorem c1_signer_contract (timestamp api_key recv_window api_secret : String)
    (cat req : Json) :
    generate_post_signature timestamp api_key recv_window
        (.fcons "category" cat (.fcons "request" req .fnil)) api_secret =
      hexEncode (hmacSha256 (utf8 api_secret)
        (utf8 timestamp ++ utf8 api_key ++ utf8 recv_window ++
          utf8 (jsonObjToString (.fcons "category" cat (.fcons "request" req .fnil))))) ∧
    (generate_post_signature timestamp api_key recv_window
        (.fcons "category" cat (.fcons "request" req .fnil)) api_secret).data.all
        isLowerHexChar = true := by
  constructor
  · exact generate_post_signature_concat timestamp api_key recv_window _ api_secret
  · rw [generate_post_signature_concat]
    exact hexEncode_lower _

/-- C2: for every batch-order and batch-cancel request that is sent, the
`X-BAPI-SIGN` header carried by the transmitted request is the HMAC-SHA256
digest over exactly the bytes of the body the request transmits (prefixed by
timestamp, API key and receive window): signing and transmission serialize
the same parameter map with serde, so the signed JSON and the POSTed JSON are
byte-identical. -/
theorem c2_signed_equals_transmitted
    (api_key api_secret rw order_url cancel_url symbol price place_ts cancel_ts : String)
    (resp : Except String (ApiResponse BatchOrderResult)) (records : List CancelOrderData)
    (cresp : Except String String) :
    (∀ rec req,
      place_batch_order api_key api_secret rw order_url symbol price place_ts resp =
          .ok (rec, req) →
        ("X-BAPI-SIGN", hexEncode (hmacSha256 (utf8 api_secret)
          (utf8 place_ts ++ utf8 api_key ++ utf8 rw ++ utf8 req.body))) ∈ req.headers) ∧
    (∀ req,
      cancel_batch_order api_key api_secret rw cancel_url records cancel_ts cresp = .ok req →
        ("X-BAPI-SIGN", hexEncode (hmacSha256 (utf8 api_secret)
          (utf8 cancel_ts ++ utf8 api_key ++ utf8 rw ++ utf8 req.body))) ∈ req.headers) :=
  ⟨fun _ _ h => place_ok_signed _ _ _ _ _ _ _ _ _ _ h,
   fun _ h => cancel_ok_signed _ _ _ _ _ _ _ _ h⟩

/-- Witness for C2 at a concrete successful placement and cancellation. -/
theorem c2_signed_equals_transmitted_witness :
    (place_batch_order "key" "secret" "10000" "https://x/order" "BEAMUSDT" "2.00" "111"
        (.ok (orderApiW "BEAMUSDT")) =
      .ok ((place_batch_order "key" "secret" "10000" "https://x/order" "BEAMUSDT" "2.00" "111"
        (.ok (orderApiW "BEAMUSDT"))).getOk placedD)) ∧
    ("X-BAPI-SIGN", hexEncode (hmacSha256 (utf8 "secret")
      (utf8 "111" ++ utf8 "key" ++ utf8 "10000" ++
        utf8 ((place_batch_order "key" "secret" "10000" "https://x/order" "BEAMUSDT" "2.00" "111"
          (.ok (orderApiW "BEAMUSDT"))).getOk placedD).2.body))) ∈
      ((place_batch_order "key" "secret" "10000" "https://x/order" "BEAMUSDT" "2.00" "111"
        (.ok (orderApiW "BEAMUSDT"))).getOk placedD).2.headers ∧
    (cancel_batch_order "key" "secret" "10000" "https://x/cancel"
        [{ symbol := "BEAMUSDT", order_id := "oid-1" }] "222" (.ok "ok") =
      .ok ((cancel_batch_order "key" "secret" "10000" "https://x/cancel"
        [{ symbol := "BEAMUSDT", order_id := "oid-1" }] "222" (.ok "ok")).getOk postD)) ∧
    ("X-BAPI-SIGN", hexEncode (hmacSha256 (utf8 "secret")
      (utf8 "222" ++ utf8 "key" ++ utf8 "10000" ++
        utf8 ((cancel_batch_order "key" "secret" "10000" "https://x/cancel"
          [{ symbol := "BEAMUSDT", order_id := "oid-1" }] "222" (.ok "ok")).getOk postD).body))) ∈
      ((cancel_batch_order "key" "secret" "10000" "https://x/cancel"
        [{ symbol := "BEAMUSDT", order_id := "oid-1" }] "222" (.ok "ok")).getOk postD).headers := by
  have hok : (place_batch_order "key" "secret" "10000" "https://x/order" "BEAMUSDT" "2.00" "111"
      (.ok (orderApiW "BEAMUSDT"))).isOk = true := rfl
  have heq := outcome_eq_ok _ placedD hok
  have hcok : (cancel_batch_order "key" "secret" "10000" "https://x/cancel"
      [{ symbol := "BEAMUSDT", order_id := "oid-1" }] "222" (.ok "ok")).isOk = true := rfl
  have hceq := outcome_eq_ok _ postD hcok
  exact ⟨heq,
    (c2_signed_equals_transmitted "key" "secret" "10000" "https://x/order" "https://x/cancel"
      "BEAMUSDT" "2.00" "111" "222" (.ok (orderApiW "BEAMUSDT"))
      [{ symbol := "BEAMUSDT", order_id := "oid-1" }] (.ok "ok")).1 _ _ heq,
    hceq,
    (c2_signed_equals_transmitted "key" "secret" "10000" "https://x/order" "https://x/cancel"
      "BEAMUSDT" "2.00" "111" "222" (.ok (orderApiW "BEAMUSDT"))
      [{ symbol := "BEAMUSDT", order_id := "oid-1" }] (.ok "ok")).2 _ hceq⟩

/-- C3 counterexample: for the unsupported symbol `DOGEUSDT` with a perfectly
well-formed price, `calculate_position` does return no result — but the
caller does not skip the symbol: `place_batch_order` panics (via `expect`),
which would abort the whole process, contradicting the claim that this
cannot crash the cycle. -/
theorem c3_counterexample :
    calculate_position (flit 2 1) "DOGEUSDT" = none ∧
    place_batch_order "key" "secret" "10000" "https://x/order" "DOGEUSDT" "2.00" "111"
        (.ok (orderApiW "DOGEUSDT")) = .panic "Failed calculating position" :=
  ⟨rfl, rfl⟩

/-- C3 (amended): the position calculator returns no result for every symbol
without a precision rule; but the caller `place_batch_order` panics
(`expect("Failed calculating position")`) on that `None` instead of skipping
the symbol — the cycle avoids the panic only because `main`'s symbol list
contains the three supported symbols, for which the calculator always
returns a result. -/
theorem c3_unsupported_symbol (p : F64) (symbol : String)
    (h1 : symbol ≠ "BEAMUSDT") (h2 : symbol ≠ "SEIUSDT") (h3 : symbol ≠ "AGIXUSDT") :
    calculate_position p symbol = none ∧
    (∀ api_key api_secret rw url price ts resp pf, parseF64 price = some pf →
      place_batch_order api_key api_secret rw url symbol price ts resp =
        .panic "Failed calculating position") ∧
    (∀ s ∈ mainSymbols, ∀ q : F64, (calculate_position q s).isSome = true) := by
  refine ⟨calculate_position_unsupported p symbol h1 h2 h3, ?_, ?_⟩
  · intro api_key api_secret rw url price ts resp pf hpf
    exact place_unsupported_panic api_key api_secret rw url symbol price ts resp pf hpf h1 h2 h3
  · intro s hs q
    apply calculate_position_supported
    simpa [mainSymbols] using hs

/-- Witness for C3 (amended) at symbol `XRPUSDT`, price `3`. -/
theorem c3_unsupported_symbol_witness :
    calculate_position (flit 3 1) "XRPUSDT" = none ∧
    place_batch_order "key" "secret" "10000" "https://x/order" "XRPUSDT" "3" "111"
        (.ok (orderApiW "XRPUSDT")) = .panic "Failed calculating position" ∧
    (calculate_position (flit 3 1) "SEIUSDT").isSome = true := by
  have h := c3_unsupported_symbol (flit 3 1) "XRPUSDT" (by decide) (by decide) (by decide)
  exact ⟨h.1, h.2.1 "key" "secret" "10000" "https://x/order" "3" "111"
    (.ok (orderApiW "XRPUSDT")) (flit 3 1) rfl,
    h.2.2 "SEIUSDT" (by simp [mainSymbols]) (flit 3 1)⟩

/-- C6: for opening price 2.00 and symbol BEAMUSDT the calculator produces
tier prices `1.600000` / `1.500000` / `1.400000` and tier sizes `625` / `667`
/ `1429`; the last three conjuncts spell out that each size string is the
fixed allocation divided by the tier price, rounded half-away-from-zero
(`f64::round`) and formatted with zero decimals. -/
theorem c6_beam_scenario :
    parseF64 "2.00" = some (flit 2 1) ∧
    calculate_position (flit 2 1) "BEAMUSDT" =
      some { twenty_percent_price := "1.600000", twenty_five_percent_price := "1.500000",
             thirty_percent_price := "1.400000", twenty_percent_size := "625",
             twenty_five_percent_size := "667", thirty_percent_size := "1429" } ∧
    "625" = fmtF64 0 ((lit1000.div ((flit 2 1).sub ((flit 2 1).mul lit02))).roundHalfAway) ∧
    "667" = fmtF64 0 ((lit1000.div ((flit 2 1).sub ((flit 2 1).mul lit025))).roundHalfAway) ∧
    "1429" = fmtF64 0 ((lit2000.div ((flit 2 1).sub ((flit 2 1).mul lit03))).roundHalfAway) :=
  ⟨rfl, rfl, rfl, rfl, rfl⟩

/-- C4 counterexample: in a cycle where the SEIUSDT candlestick response
decodes successfully but its candle list is empty, the fetch does not yield a
recoverable error to be skipped: `get_kline` panics on
`list.first().unwrap()`, the panic propagates through the joined fetches, no
order is placed for any symbol, and the loop terminates — the cycle does not
proceed with the remaining symbols. -/
theorem c4_counterexample :
    runCycle cfgW envEmptySeiW = .panic "called `Option::unwrap()` on a `None` value" ∧
    runLoop cfgW [envEmptySeiW] =
      ([], some "called `Option::unwrap()` on a `None` value") :=
  ⟨rfl, rfl⟩

/-- C4 (amended): a decoded candlestick response with an empty candle list
makes `get_kline` panic (`unwrap` on `None`), terminating the process rather
than yielding an error; only fetches that fail with a transport or decode
error (`Err`) are absorbed — the placement loop skips an `Err` result and
continues with the remaining symbols' results. -/
theorem c4_empty_list_panics (s : String) (api : ApiResponse KlineData)
    (hk : api.result.list = []) (e : String) (cfg : Config) (env : CycleEnv)
    (rest : List (Except String (String × String))) :
    get_kline s (.ok api) = .panic "called `Option::unwrap()` on a `None` value" ∧
    get_kline s (.error e) = .err e ∧
    placeLoop cfg env (.error e :: rest) = placeLoop cfg env rest :=
  ⟨get_kline_empty s api hk, rfl, rfl⟩

/-- Witness for C4 (amended) at a concrete empty response. -/
theorem c4_empty_list_panics_witness :
    get_kline "SEIUSDT" (.ok (klineApiEmptyW "SEIUSDT")) =
      .panic "called `Option::unwrap()` on a `None` value" ∧
    get_kline "SEIUSDT" (.error "timeout") = .err "timeout" ∧
    placeLoop cfgW envOkW (.error "timeout" :: []) = placeLoop cfgW envOkW [] :=
  c4_empty_list_panics "SEIUSDT" (klineApiEmptyW "SEIUSDT") rfl "timeout" cfgW envOkW []

/-- C5: in every completed cycle the cancel list is exactly the concatenation,
in placement order, of the (symbol, orderId) pairs extracted from that
cycle's decoded placement responses — taken from the responses, never
re-queried; no cancel request is issued when the list is empty, and when one
is issued its body serializes exactly those records. -/
theorem c5_cancel_records_exact (cfg : Config) (env : CycleEnv) (tr : CycleTrace)
    (h : runCycle cfg env = .ok tr) :
    tr.cancel_order_data =
      tr.placedSymbols.flatMap (fun s => extractRecords (env.orderResp s)) ∧
    (tr.cancel_order_data = [] ↔ tr.cancelRequest = none) ∧
    ∀ req, tr.cancelRequest = some req →
      req.body = jsonObjToString (mkBodyParams (.arr (toJsonList
        (tr.cancel_order_data.map cancelOrderJson)))) :=
  ⟨runCycle_ok_records cfg env tr h, runCycle_ok_cancel cfg env tr h⟩

/-- Witness for C5 at a concrete all-successful cycle. -/
theorem c5_cancel_records_exact_witness :
    (runCycle cfgW envOkW = .ok ((runCycle cfgW envOkW).getOk traceD)) ∧
    ((runCycle cfgW envOkW).getOk traceD).cancel_order_data =
      ((runCycle cfgW envOkW).getOk traceD).placedSymbols.flatMap
        (fun s => extractRecords (envOkW.orderResp s)) := by
  have hok : (runCycle cfgW envOkW).isOk = true := rfl
  have heq := outcome_eq_ok _ traceD hok
  exact ⟨heq, (c5_cancel_records_exact cfgW envOkW _ heq).1⟩

/-- C7 counterexample: `5e-324` parses to the smallest positive double, a
positive opening price; for BEAMUSDT the computed sizes overflow to infinity
and render as `"inf"`, which is not an integer string — so the unrestricted
claim that sizes always format as integers for every positive opening price
fails (the prices still render with exactly 6 decimals). -/
theorem c7_counterexample :
    parseF64 "5e-324" = some (F64.finite 1 (-1074)) ∧
    (0 : Int) < 1 ∧
    calculate_position (F64.finite 1 (-1074)) "BEAMUSDT" =
      some { twenty_percent_price := "0.000000", twenty_five_percent_price := "0.000000",
             thirty_percent_price := "0.000000", twenty_percent_size := "inf",
             twenty_five_percent_size := "inf", thirty_percent_size := "inf" } ∧
    isIntegerString "inf" = false :=
  ⟨rfl, by decide, rfl, rfl⟩

/-- C7 (amended): the calculator formats BEAMUSDT prices with `{:.6}`,
SEIUSDT/AGIXUSDT prices with `{:.5}` and sizes with `{:.0}` or `Display`
after `f64::round`, and yields no result for any other symbol; every finite
double formatted with precision 6 (resp. 5) has exactly 6 (resp. 5) decimal
digits, and every rounded finite double formats as a plain integer string —
but a size whose division overflowed to infinity renders as `"inf"` instead
(the counterexample), so the integer-size guarantee holds exactly for the
finite sizes. -/
theorem c7_formatting_by_symbol :
    (∀ m e : Int, decimalDigitsAfterPoint (fmtF64 6 (.finite m e)) = some 6) ∧
    (∀ m e : Int, decimalDigitsAfterPoint (fmtF64 5 (.finite m e)) = some 5) ∧
    (∀ m e : Int, isIntegerString (fmtF64 0 ((F64.finite m e).roundHalfAway)) = true) ∧
    (∀ m e : Int, isIntegerString (displayF64 ((F64.finite m e).roundHalfAway)) = true) ∧
    (∀ price : F64, calculate_position price "BEAMUSDT" =
      some { twenty_percent_price := fmtF64 6 (price.sub (price.mul lit02)),
             twenty_five_percent_price := fmtF64 6 (price.sub (price.mul lit025)),
             thirty_percent_price := fmtF64 6 (price.sub (price.mul lit03)),
             twenty_percent_size :=
               fmtF64 0 ((lit1000.div (price.sub (price.mul lit02))).roundHalfAway),
             twenty_five_percent_size :=
               fmtF64 0 ((lit1000.div (price.sub (price.mul lit025))).roundHalfAway),
             thirty_percent_size :=
               fmtF64 0 ((lit2000.div (price.sub (price.mul lit03))).roundHalfAway) }) ∧
    (∀ price : F64, calculate_position price "SEIUSDT" =
      some { twenty_percent_price := fmtF64 5 (price.sub (price.mul lit02)),
             twenty_five_percent_price := fmtF64 5 (price.sub (price.mul lit025)),
             thirty_percent_price := fmtF64 5 (price.sub (price.mul lit03)),
             twenty_percent_size :=
               displayF64 ((lit1000.div (price.sub (price.mul lit02))).roundHalfAway),
             twenty_five_percent_size :=
               displayF64 ((lit1000.div (price.sub (price.mul lit025))).roundHalfAway),
             thirty_percent_size :=
               displayF64 ((lit2000.div (price.sub (price.mul lit03))).roundHalfAway) }) ∧
    (∀ price : F64, calculate_position price "AGIXUSDT" =
      some { twenty_percent_price := fmtF64 5 (price.sub (price.mul lit02)),
             twenty_five_percent_price := fmtF64 5 (price.sub (price.mul lit025)),
             thirty_percent_price := fmtF64 5 (price.sub (price.mul lit03)),
             twenty_percent_size :=
               displayF64 ((lit1000.div (price.sub (price.mul lit02))).roundHalfAway),
             twenty_five_percent_size :=
               displayF64 ((lit1000.div (price.sub (price.mul lit025))).roundHalfAway),
             thirty_percent_size :=
               displayF64 ((lit2000.div (price.sub (price.mul lit03))).roundHalfAway) }) ∧
    (∀ (price : F64) (s : String), s ≠ "BEAMUSDT" → s ≠ "SEIUSDT" → s ≠ "AGIXUSDT" →
      calculate_position price s = none) := by
  refine ⟨fun m e => fmt_finite_decimals 6 (by norm_num) m e,
    fun m e => fmt_finite_decimals 5 (by norm_num) m e, ?_,
    fun m e => display_round_integer m e,
    fun _ => rfl, fun _ => rfl, fun _ => rfl,
    fun price s h1 h2 h3 => calculate_position_unsupported price s h1 h2 h3⟩
  intro m e
  by_cases he : 0 ≤ e
  · have : (F64.finite m e).roundHalfAway = .finite m e := by
      simp [F64.roundHalfAway, he]
    rw [this]
    exact fmt0_integer m e
  · have : (F64.finite m e).roundHalfAway =
        .finite (if m < 0 then
          -(((if pow2 (-e).toNat ≤ 2 * (m.natAbs % pow2 (-e).toNat) then
              m.natAbs / pow2 (-e).toNat + 1 else m.natAbs / pow2 (-e).toNat) : Nat) : Int)
        else (((if pow2 (-e).toNat ≤ 2 * (m.natAbs % pow2 (-e).toNat) then
              m.natAbs / pow2 (-e).toNat + 1 else m.natAbs / pow2 (-e).toNat) : Nat) : Int)) 0 := by
      simp [F64.roundHalfAway, he]
    rw [this]
    exact fmt0_integer _ _

/-- Witness for C7 (amended) at concrete doubles and the symbol `DOGEUSDT`. -/
theorem c7_formatting_by_symbol_witness :
    decimalDigitsAfterPoint (fmtF64 6 (.finite 7205759403792794 (-52))) = some 6 ∧
    isIntegerString (displayF64 ((F64.finite 667 0).roundHalfAway)) = true ∧
    calculate_position (F64.finite 5 0) "DOGEUSDT" = none := by
  refine ⟨c7_formatting_by_symbol.1 7205759403792794 (-52),
    c7_formatting_by_symbol.2.2.2.1 667 0, ?_⟩
  exact c7_formatting_by_symbol.2.2.2.2.2.2.2 (F64.finite 5 0) "DOGEUSDT"
    (by decide) (by decide) (by decide)

/-- C8: an error from order placement or from order cancellation terminates
the entire process, in every cycle. First conjunct: a placement-POST `Err`
for any fetched symbol, at any position of the cycle's fetch results, makes
the placement loop panic (via `expect`). Second and third conjuncts: a
placement-stage panic makes the whole cycle panic (exactly, once the joined
fetches themselves did not panic). Fourth and fifth conjuncts: a
cancellation-POST `Err` in any cycle whose placement stage completed with a
nonempty cancel list — failed fetches included, since the loop skips them —
makes the cycle panic (exactly `"Failed canceling orders"` when the fetches
did not panic). Last conjunct: a panicking cycle ends the loop; no later
iteration runs. -/
theorem c8_order_error_terminates (cfg : Config) (env : CycleEnv) (rest : List CycleEnv) :
    (∀ (results : List (Except String (String × String))) (sym op e : String),
      .ok (sym, op) ∈ results →
      place_batch_order cfg.api_key cfg.api_secret recv_window cfg.batch_order_url sym op
        (env.placeTs sym) (env.orderResp sym) = .err e →
      ∃ m, placeLoop cfg env results = .panic m) ∧
    (∀ m, placeLoop cfg env ((mainSymbols.map fun s =>
        get_kline s (env.klineResp s)).map Outcome.toExcept) = .panic m →
      ∃ m', runCycle cfg env = .panic m') ∧
    (∀ m, firstPanic (mainSymbols.map fun s => get_kline s (env.klineResp s)) = none →
      placeLoop cfg env ((mainSymbols.map fun s =>
        get_kline s (env.klineResp s)).map Outcome.toExcept) = .panic m →
      runCycle cfg env = .panic m) ∧
    (∀ syms reqs recs ec,
      placeLoop cfg env ((mainSymbols.map fun s =>
        get_kline s (env.klineResp s)).map Outcome.toExcept) = .ok (syms, reqs, recs) →
      recs ≠ [] →
      env.cancelResp = .error ec →
      ∃ m, runCycle cfg env = .panic m) ∧
    (∀ syms reqs recs ec,
      firstPanic (mainSymbols.map fun s => get_kline s (env.klineResp s)) = none →
      placeLoop cfg env ((mainSymbols.map fun s =>
        get_kline s (env.klineResp s)).map Outcome.toExcept) = .ok (syms, reqs, recs) →
      recs ≠ [] →
      env.cancelResp = .error ec →
      runCycle cfg env = .panic "Failed canceling orders") ∧
    (∀ m, runCycle cfg env = .panic m → runLoop cfg (env :: rest) = ([], some m)) := by
  refine ⟨?_, ?_, ?_, ?_, ?_, fun m hm => runLoop_panic_stop cfg env rest m hm⟩
  · intro results sym op e hmem hplerr
    induction results with
    | nil => exact absurd hmem (List.not_mem_nil _)
    | cons r0 rest' ih =>
      rcases List.mem_cons.mp hmem with heq0 | hmemr
      · subst heq0
        exact ⟨"Error placing order", by simp only [placeLoop, hplerr]⟩
      · cases r0 with
        | error e0 =>
          obtain ⟨m, hm⟩ := ih hmemr
          exact ⟨m, by rw [placeLoop_skip_err]; exact hm⟩
        | ok pr0 =>
          obtain ⟨s0, o0⟩ := pr0
          obtain ⟨m, hm⟩ := ih hmemr
          cases hpl0 : place_batch_order cfg.api_key cfg.api_secret recv_window
              cfg.batch_order_url s0 o0 (env.placeTs s0) (env.orderResp s0) with
          | panic m0 => exact ⟨m0, by simp only [placeLoop, hpl0]⟩
          | err e0 => exact ⟨"Error placing order", by simp only [placeLoop, hpl0]⟩
          | ok cdreq =>
            obtain ⟨cd0, rq0⟩ := cdreq
            exact ⟨m, by simp only [placeLoop, hpl0, hm]⟩
  · intro m hpl
    unfold runCycle
    split
    · rename_i m0 hm0
      exact ⟨m0, rfl⟩
    · split
      · rename_i m1 heq
        exact ⟨m1, rfl⟩
      · rename_i e1 heq
        rw [hpl] at heq
        exact absurd heq (by simp)
      · rename_i syms reqs recs heq
        rw [hpl] at heq
        exact absurd heq (by simp)
  · intro m hfp hpl
    unfold runCycle
    split
    · rename_i m0 hm0
      rw [hfp] at hm0
      exact Option.noConfusion hm0
    · split
      · rename_i m1 heq
        rw [hpl] at heq
        obtain rfl : m = m1 := Outcome.panic.inj heq
        rfl
      · rename_i e1 heq
        rw [hpl] at heq
        exact absurd heq (by simp)
      · rename_i syms reqs recs heq
        rw [hpl] at heq
        exact absurd heq (by simp)
  · intro syms reqs recs ec hloop hne hcR
    unfold runCycle
    split
    · rename_i m0 hm0
      exact ⟨m0, rfl⟩
    · split
      · rename_i m1 heq
        rw [hloop] at heq
        exact absurd heq (by simp)
      · rename_i e1 heq
        rw [hloop] at heq
        exact absurd heq (by simp)
      · rename_i syms' reqs' recs' heq
        rw [hloop] at heq
        simp only [Outcome.ok.injEq, Prod.mk.injEq] at heq
        obtain ⟨-, -, rfl⟩ := heq
        have hempF : recs.isEmpty = false := by
          cases recs with
          | nil => exact absurd rfl hne
          | cons a t => rfl
        rw [if_neg (by simp [hempF])]
        rw [hcR, cancel_error_err]
        exact ⟨"Failed canceling orders", rfl⟩
  · intro syms reqs recs ec hfp hloop hne hcR
    unfold runCycle
    split
    · rename_i m0 hm0
      rw [hfp] at hm0
      exact Option.noConfusion hm0
    · split
      · rename_i m1 heq
        rw [hloop] at heq
        exact absurd heq (by simp)
      · rename_i e1 heq
        rw [hloop] at heq
        exact absurd heq (by simp)
      · rename_i syms' reqs' recs' heq
        rw [hloop] at heq
        simp only [Outcome.ok.injEq, Prod.mk.injEq] at heq
        obtain ⟨-, -, rfl⟩ := heq
        have hempF : recs.isEmpty = false := by
          cases recs with
          | nil => exact absurd rfl hne
          | cons a t => rfl
        rw [if_neg (by simp [hempF])]
        rw [hcR, cancel_error_err]

/-- Witness for C8: a placement failure at the non-first symbol SEIUSDT
panics the placement loop; concrete environments where the placement POST
(respectively the cancel POST) fails panic the cycle; and the loop stops
after the failing cycle. -/
theorem c8_order_error_terminates_witness :
    (∃ m, placeLoop cfgW envOrderFailW [.ok ("SEIUSDT", "2.00")] = .panic m) ∧
    runCycle cfgW envOrderFailW = .panic "Error placing order" ∧
    runCycle cfgW envCancelFailW = .panic "Failed canceling orders" ∧
    runLoop cfgW (envOrderFailW :: [envOkW]) = ([], some "Error placing order") := by
  have h := c8_order_error_terminates cfgW envOrderFailW [envOkW]
  have h1 := h.1 [.ok ("SEIUSDT", "2.00")] "SEIUSDT" "2.00" "connection reset"
    (List.mem_singleton.mpr rfl) rfl
  have hplv : placeLoop cfgW envOrderFailW ((mainSymbols.map fun s =>
      get_kline s (envOrderFailW.klineResp s)).map Outcome.toExcept) =
      .panic "Error placing order" := rfl
  have h2 := h.2.2.1 "Error placing order" rfl hplv
  have hc := c8_order_error_terminates cfgW envCancelFailW []
  have hok : (placeLoop cfgW envCancelFailW ((mainSymbols.map fun s =>
      get_kline s (envCancelFailW.klineResp s)).map Outcome.toExcept)).isOk = true := rfl
  have heq := outcome_eq_ok _ ([], [], []) hok
  have h3 := hc.2.2.2.2.1 _ _ _ "connection reset" rfl heq (by decide) rfl
  exact ⟨h1, h2, h3, h.2.2.2.2.2 _ h2⟩

/-- C9: a price string that does not parse as `f64` makes `place_batch_order`
panic at the parse step (`expect("failed converting price to number")`) —
no `DecodeError` or recoverable error is produced — and when such a price
arrives as the BEAMUSDT opening price of a cycle, the whole loop ends with
that panic. -/
theorem c9_malformed_price_panics (api_key api_secret rw url symbol ts : String)
    (resp : Except String (ApiResponse BatchOrderResult)) (price : String)
    (cfg : Config) (env : CycleEnv) (rest : List CycleEnv)
    (kr : ApiResponse KlineData) (k : Kline) :
    (parseF64 price = none →
      place_batch_order api_key api_secret rw url symbol price ts resp =
        .panic "failed converting price to number") ∧
    (env.klineResp "BEAMUSDT" = .ok kr → kr.result.list.head? = some k →
      parseF64 k.open_price = none →
      (get_kline "SEIUSDT" (env.klineResp "SEIUSDT")).isPanic = false →
      (get_kline "AGIXUSDT" (env.klineResp "AGIXUSDT")).isPanic = false →
      runLoop cfg (env :: rest) = ([], some "failed converting price to number")) := by
  refine ⟨fun hp => place_none_panic _ _ _ _ _ _ _ _ hp, ?_⟩
  intro h1 h2 h3 h5 h6
  have hB : get_kline "BEAMUSDT" (env.klineResp "BEAMUSDT") = .ok ("BEAMUSDT", k.open_price) := by
    rw [h1]
    exact get_kline_ok _ _ _ h2
  have hfp := firstPanic_main_none env (by rw [hB]; rfl) h5 h6
  have hplval : placeLoop cfg env ((mainSymbols.map fun s =>
      get_kline s (env.klineResp s)).map Outcome.toExcept) =
      .panic "failed converting price to number" := by
    simp only [mainSymbols, List.map_cons, List.map_nil]
    rw [hB]
    simp only [Outcome.toExcept]
    exact placeLoop_badprice_panic cfg env "BEAMUSDT" k.open_price _ h3
  have hcy : runCycle cfg env = .panic "failed converting price to number" := by
    unfold runCycle
    split
    · rename_i m hm
      rw [hfp] at hm
      exact Option.noConfusion hm
    · split
      · rename_i m hm
        rw [hplval] at hm
        obtain rfl : "failed converting price to number" = m := Outcome.panic.inj hm
        rfl
      · rename_i e hm
        rw [hplval] at hm
        exact absurd hm (by simp)
      · rename_i syms reqs recs hm
        rw [hplval] at hm
        exact absurd hm (by simp)
  exact runLoop_panic_stop cfg env rest _ hcy

/-- Witness for C9 at the malformed price `"2,00"`. -/
theorem c9_malformed_price_panics_witness :
    place_batch_order "key" "secret" "10000" "https://x/order" "BEAMUSDT" "2,00" "111"
        (.ok (orderApiW "BEAMUSDT")) = .panic "failed converting price to number" ∧
    runLoop cfgW [envBadPriceW] = ([], some "failed converting price to number") := by
  have h := c9_malformed_price_panics "key" "secret" "10000" "https://x/order" "BEAMUSDT" "111"
    (.ok (orderApiW "BEAMUSDT")) "2,00" cfgW envBadPriceW [] (klineApiBadW "BEAMUSDT") klineBadW
  exact ⟨h.1 rfl, h.2 rfl rfl rfl rfl rfl⟩

/-- C10: every trace the loop produces at position `i` is the result of
running the cycle on the `i`-th environment alone — the cancel list is
rebuilt from scratch inside each iteration, so no (symbol, orderId) record can
flow from one cycle into a later cycle's payload; within the cycle, an empty
list issues no cancel request at all, and a nonempty one is consumed by
exactly one request whose body serializes exactly that list. -/
theorem c10_fresh_cancel_list (cfg : Config) (envs : List CycleEnv) (i : Nat) (tr : CycleTrace)
    (h : (runLoop cfg envs).1.get? i = some tr) :
    (∃ env, envs.get? i = some env ∧ runCycle cfg env = .ok tr) ∧
    (tr.cancel_order_data = [] ↔ tr.cancelRequest = none) ∧
    (∀ req, tr.cancelRequest = some req →
      req.body = jsonObjToString (mkBodyParams (.arr (toJsonList
        (tr.cancel_order_data.map cancelOrderJson))))) := by
  have hex : ∃ env, envs.get? i = some env ∧ runCycle cfg env = .ok tr := by
    induction envs generalizing i with
    | nil =>
      rw [show runLoop cfg [] = ([], none) from rfl] at h
      exact absurd h (by simp)
    | cons env rest ih =>
      cases hc : runCycle cfg env with
      | ok tr0 =>
        have hstep : runLoop cfg (env :: rest) =
            (tr0 :: (runLoop cfg rest).1, (runLoop cfg rest).2) := by
          simp [runLoop, hc]
        rw [hstep] at h
        cases i with
        | zero =>
          obtain rfl : tr0 = tr := by simpa using h
          exact ⟨env, rfl, hc⟩
        | succ n =>
          obtain ⟨env', hg, hcy⟩ := ih n (by simpa using h)
          exact ⟨env', by simpa using hg, hcy⟩
      | err e =>
        have hstep : runLoop cfg (env :: rest) = ([], some e) := by
          simp [runLoop, hc]
        rw [hstep] at h
        exact absurd h (by simp)
      | panic m =>
        have hstep : runLoop cfg (env :: rest) = ([], some m) := by
          simp [runLoop, hc]
        rw [hstep] at h
        exact absurd h (by simp)
  obtain ⟨env, hget, hcy⟩ := hex
  exact ⟨⟨env, hget, hcy⟩, runCycle_ok_cancel cfg env tr hcy⟩

/-- Witness for C10 at a concrete single-cycle run. -/
theorem c10_fresh_cancel_list_witness :
    (runLoop cfgW [envOkW]).1.get? 0 =
      some ((runLoop cfgW [envOkW]).1.getD 0 traceD) ∧
    (((runLoop cfgW [envOkW]).1.getD 0 traceD).cancel_order_data = [] ↔
      ((runLoop cfgW [envOkW]).1.getD 0 traceD).cancelRequest = none) := by
  have hg : (runLoop cfgW [envOkW]).1.get? 0 =
      some ((runLoop cfgW [envOkW]).1.getD 0 traceD) := rfl
  exact ⟨hg, (c10_fresh_cancel_list cfgW [envOkW] 0 _ hg).2.1⟩

end StinkBid
